import Mathlib

/-!
Verification development for the EO_Web_Viewer data indexer.

The indexer loads game data sources (binary pub tables, INI-style text
files, map files and quest scripts), parses them into typed collections and
stitches them into a cross-referenced `GameDatabase`. This file gives a
shallow embedding of the loaders (`iniLoader.ts`, `pubLoader.ts`,
`mapLoader.ts`, `questLoader.ts`) and of the cross-reference indexer
(`indexer.ts`) and proves properties of the build.

Modelling conventions:
* JavaScript `Map` objects are modelled by `JMap`, association lists with
  the same observable semantics: `set` overwrites the value at the first
  occurrence of an existing key, leaving its position unchanged, and
  appends otherwise; `get` returns the first binding; iteration order is
  insertion order.
* JavaScript numbers holding FLOAT values (drop rates, chances) are
  modelled as exact rationals `Rat`.  This agrees with JS semantics on the
  short decimal literals the data files use.
* Asynchronous fetches are modelled by the `DataSources` environment: an
  `Option` field is `none` when the corresponding fetch rejects (missing
  file / network failure) and `some content` when it resolves.  An
  unguarded `await` on a rejecting fetch is a propagated `Except.error`;
  a `try { ... } catch { return empty }` becomes a `match` on the option.
  `Promise.all` settles deterministically here: its rejection value is the
  first rejection in array order.
* Object mutation is modelled by threading the containing `JMap`s through
  the indexing passes; a held reference to an entity of a table is
  modelled by the key of its entry.
* Pure stat payload fields that no loader, indexing pass or claim reads
  (weights, stat blocks, requirement blocks of items/NPCs/spells/classes)
  are elided from the record types: they are copied verbatim from the
  binary records and never inspected.
-/

set_option autoImplicit false

/-! ## Character / string primitives (JS semantics) -/

/-- Case mapping used by `String.prototype.toLowerCase`, restricted to the
character-wise mapping (identical to JS on the ASCII names the data uses). -/
def jsToLower (s : String) : String := s.map Char.toLower

/-- List-of-characters version of `String.prototype.trim`. -/
def trimChars (cs : List Char) : List Char :=
  ((cs.dropWhile Char.isWhitespace).reverse.dropWhile Char.isWhitespace).reverse

/-- Model of `String.prototype.trim`. -/
def jsTrim (s : String) : String := String.mk (trimChars s.toList)

/-- Helper for `splitOnChar`: first field and remaining fields. -/
def splitOnCharCore (sep : Char) : List Char → List Char × List (List Char)
  | [] => ([], [])
  | c :: t =>
    let p := splitOnCharCore sep t
    if c = sep then ([], p.1 :: p.2) else (c :: p.1, p.2)

/-- Model of `String.prototype.split` with a one-character separator:
every occurrence of `sep` ends a field, and the result is never empty. -/
def splitOnChar (sep : Char) (cs : List Char) : List (List Char) :=
  (splitOnCharCore sep cs).1 :: (splitOnCharCore sep cs).2

/-- Numeric value of a digit string. -/
def digitsVal (ds : List Char) : Nat := ds.foldl (fun a c => a * 10 + (c.toNat - 48)) 0

/-- Model of `parseInt(s, 10)`: skip leading whitespace, optional sign, then
a maximal digit prefix; `none` models `NaN` (no digits).  The hexadecimal
and exotic forms of `parseInt` do not occur in the data formats. -/
def parseIntChars (cs0 : List Char) : Option Int :=
  let cs1 := cs0.dropWhile Char.isWhitespace
  let sn : Bool × List Char :=
    match cs1 with
    | '-' :: t => (true, t)
    | '+' :: t => (false, t)
    | _ => (false, cs1)
  let ds := sn.2.takeWhile Char.isDigit
  if ds = [] then none
  else some (if sn.1 then -(digitsVal ds : Int) else (digitsVal ds : Int))

/-- Model of `parseFloat`: skip leading whitespace, optional sign, maximal
`digits [. digits]` prefix, value as an exact rational.  `none` models
`NaN`; exponent notation does not occur in the data formats. -/
def parseFloatChars (cs0 : List Char) : Option Rat :=
  let cs1 := cs0.dropWhile Char.isWhitespace
  let sn : Bool × List Char :=
    match cs1 with
    | '-' :: t => (true, t)
    | '+' :: t => (false, t)
    | _ => (false, cs1)
  let ip := sn.2.takeWhile Char.isDigit
  let rest := sn.2.dropWhile Char.isDigit
  match rest with
  | '.' :: t =>
    let fp := t.takeWhile Char.isDigit
    if ip = [] ∧ fp = [] then none
    else
      let v : Rat := (digitsVal ip : Rat) + (digitsVal fp : Rat) / ((10 : Rat) ^ fp.length)
      some (if sn.1 then -v else v)
  | _ =>
    if ip = [] then none
    else some (if sn.1 then -(digitsVal ip : Rat) else (digitsVal ip : Rat))

/-! ## JS `Map` model -/

/-- Model of a JavaScript `Map`: an insertion-ordered association list. -/
abbrev JMap (κ α : Type) := List (κ × α)

/-- Model of `Map.prototype.get`. -/
def JMap.get {κ α : Type} [DecidableEq κ] : JMap κ α → κ → Option α
  | [], _ => none
  | (k', v) :: t, k => if k = k' then some v else JMap.get t k

/-- Model of `Map.prototype.set`: overwrite in place if the key is present,
append otherwise. -/
def JMap.set {κ α : Type} [DecidableEq κ] : JMap κ α → κ → α → JMap κ α
  | [], k, v => [(k, v)]
  | (k', v') :: t, k, v =>
    if k = k' then (k', v) :: t else (k', v') :: JMap.set t k v

/-- Model of `Map.prototype.values()` (insertion order). -/
def JMap.values {κ α : Type} (m : JMap κ α) : List α := m.map Prod.snd

/-- The keys of a map, in insertion order. -/
def JMap.keysOf {κ α : Type} (m : JMap κ α) : List κ := m.map Prod.fst

/-! ## Game data model (`types/game.ts`), relationship-relevant fields -/

/-- One entry of an NPC drop table (`ItemDrop`). -/
structure ItemDrop where
  itemId : Int
  itemName : String
  minAmount : Int
  maxAmount : Int
  dropRate : Rat
  deriving DecidableEq

/-- Reverse drop edge on the item side (`NpcDrop`). -/
structure NpcDrop where
  npcId : Int
  npcName : String
  minAmount : Int
  maxAmount : Int
  dropRate : Rat
  deriving DecidableEq

/-- One crafting ingredient (`CraftIngredient`). -/
structure CraftIngredient where
  itemId : Int
  itemName : String
  amount : Int
  deriving DecidableEq

/-- Sale listing on the item side (`ShopInfo`). -/
structure ShopInfo where
  shopId : Int
  shopName : String
  npcId : Option Int
  npcName : Option String
  buyPrice : Int
  sellPrice : Int
  deriving DecidableEq

/-- Craft recipe entry on the item side (`CraftInfo`). -/
structure CraftInfo where
  shopId : Int
  shopName : String
  npcId : Option Int
  npcName : Option String
  ingredients : List CraftIngredient
  deriving DecidableEq

/-- Trade listing attached to a shop NPC (element type of `GameNpc.shopItems`). -/
structure NpcShopItem where
  itemId : Int
  itemName : String
  buyPrice : Int
  sellPrice : Int
  deriving DecidableEq

/-- Craft offering attached to a shop NPC (element type of `GameNpc.craftItems`). -/
structure NpcCraftItem where
  resultItemId : Int
  resultItemName : String
  ingredients : List CraftIngredient
  deriving DecidableEq

/-- Spawn placement attached to an NPC (`MapSpawnInfo`). -/
structure MapSpawnInfo where
  mapId : Int
  mapName : String
  x : Int
  y : Int
  spawnType : Int
  spawnTime : Int
  amount : Int
  deriving DecidableEq

/-- Role of an NPC in a quest (`QuestInvolvement.role`). -/
inductive QuestRole where
  | dialogue
  | kill
  deriving DecidableEq

/-- Quest involvement entry on the NPC side (`QuestInvolvement`). -/
structure QuestInvolvement where
  questId : Int
  questName : String
  role : QuestRole
  deriving DecidableEq

/-- Quest reward edge on the item side (`QuestReward`). -/
structure QuestReward where
  questId : Int
  questName : String
  amount : Int
  deriving DecidableEq

/-- Quest requirement edge on the item side (`QuestRequirement`). -/
structure QuestRequirement where
  questId : Int
  questName : String
  count : Int
  deriving DecidableEq

/-- Special-drop annotation (`SpecialDropInfo`). -/
structure SpecialDropInfo where
  effect : Int
  serverMessage : Bool
  deriving DecidableEq

/-- Special-spawn annotation (`SpecialSpawnInfo`).  `match[2]` (the spawn
id) is not read by the loader and is not stored, exactly as in the code. -/
structure SpecialSpawnInfo where
  spawnFromNpcId : Int
  spawnFromNpcName : String
  chance : Rat
  amount : Int
  message : Option String
  deriving DecidableEq

/-- Cast type of an NPC spellcast entry. -/
inductive CastType where
  | target
  | aoe
  deriving DecidableEq

/-- NPC spellcasting entry (`SpellcastInfo`). -/
structure SpellcastInfo where
  spellId : Int
  spellName : String
  castType : CastType
  damage : Int
  chance : Rat
  deriving DecidableEq

/-- Pet stat block, the 11 numeric fields after the NPC id in `pets.ini`. -/
structure PetStats where
  str : Int
  int : Int
  wis : Int
  agi : Int
  con : Int
  cha : Int
  armor : Int
  evade : Int
  accuracy : Int
  minDamage : Int
  maxDamage : Int
  deriving DecidableEq

/-- Pet link attached to an NPC (`PetInfo`). -/
structure PetInfo where
  itemId : Int
  itemName : String
  stats : PetStats
  deriving DecidableEq

/-- Item entity (`GameItem`); derived back-reference fields start empty. -/
structure GameItem where
  id : Int
  name : String
  graphicId : Int
  dropsFrom : List NpcDrop := []
  soldAt : List ShopInfo := []
  craftedAt : List CraftInfo := []
  isSpecialDrop : Option SpecialDropInfo := none
  questRewards : List QuestReward := []
  questRequirements : List QuestRequirement := []
  deriving DecidableEq

/-- NPC entity (`GameNpc`); `behaviorId` is the secondary vendor id. -/
structure GameNpc where
  id : Int
  name : String
  graphicId : Int
  behaviorId : Int
  boss : Bool
  child : Bool
  npcType : Int
  drops : List ItemDrop := []
  shopItems : List NpcShopItem := []
  craftItems : List NpcCraftItem := []
  petVersion : Option PetInfo := none
  isSpecialSpawn : Option SpecialSpawnInfo := none
  spellcasting : Option SpellcastInfo := none
  spawnsOnMaps : List MapSpawnInfo := []
  questInvolvement : List QuestInvolvement := []
  deriving DecidableEq

/-- Spell entity (`GameSpell`). -/
structure GameSpell where
  id : Int
  name : String
  shout : String
  graphicId : Int
  deriving DecidableEq

/-- Class entity (`GameClass`). -/
structure GameClass where
  id : Int
  name : String
  parentType : Int
  statGroup : Int
  deriving DecidableEq

/-- Map entity (`GameMap`): display name only. -/
structure GameMap where
  id : Int
  name : String
  deriving DecidableEq

/-- Involved-NPC reference of a quest; the quest file stores only the
vendor id, the indexer fills in the resolved fields. -/
structure QuestNpcRef where
  npcId : Int
  npcName : String := ""
  enfId : Option Int := none
  graphicId : Option Int := none
  deriving DecidableEq

/-- Item reward entry of a quest. -/
structure QuestRewardItem where
  itemId : Int
  itemName : String := ""
  amount : Int
  deriving DecidableEq

/-- Kill requirement entry of a quest; references the NPC by primary id. -/
structure QuestKillReq where
  npcId : Int
  npcName : String := ""
  enfId : Option Int := none
  graphicId : Option Int := none
  count : Int
  deriving DecidableEq

/-- Item requirement entry of a quest. -/
structure QuestItemReq where
  itemId : Int
  itemName : String := ""
  count : Int
  deriving DecidableEq

/-- Quest entity (`GameQuest`). -/
structure GameQuest where
  id : Int
  name : String
  involvedNpcs : List QuestNpcRef
  rewardItems : List QuestRewardItem
  rewardExp : Int
  killRequirements : List QuestKillReq
  itemRequirements : List QuestItemReq
  deriving DecidableEq

/-- The published snapshot (`GameDatabase`). -/
structure GameDatabase where
  items : JMap Int GameItem
  npcs : JMap Int GameNpc
  spells : JMap Int GameSpell
  classes : JMap Int GameClass
  maps : JMap Int GameMap
  quests : JMap Int GameQuest
  itemsByName : JMap String GameItem
  npcsByName : JMap String GameNpc
  spellsByName : JMap String GameSpell
  deriving DecidableEq

/-! ## INI loaders (`iniLoader.ts`) -/

/-- Split a character list at the first occurrence of `sep`
(model of `indexOf` + two `substring`s); `none` when `sep` is absent. -/
def breakAtChar (sep : Char) : List Char → Option (List Char × List Char)
  | [] => none
  | c :: t =>
    if c = sep then some ([], t)
    else (breakAtChar sep t).map (fun p => (c :: p.1, p.2))

/-- Model of `parseIniLine`: trim; drop empty and `;`/`#` comment lines;
split at the first `=`; trim key and value. -/
def parseIniLine (line : List Char) : Option (List Char × List Char) :=
  let t := trimChars line
  match t with
  | [] => none
  | c :: _ =>
    if c = ';' ∨ c = '#' then none
    else
      match breakAtChar '=' t with
      | none => none
      | some p => some (trimChars p.1, trimChars p.2)

/-- The CSV fields of a value string as the loaders compute them:
`value.split(',').map(s => s.trim()).filter(s => s !== '')`.
Note that the empty fields produced by consecutive or trailing commas are
removed BEFORE the fields are cut into fixed-size groups. -/
def csvParts (cs : List Char) : List (List Char) :=
  ((splitOnChar ',' cs).map trimChars).filter (fun p => p ≠ [])

/-- Drop-table value parsing: CSV fields in groups of 4
(`itemId,min,max,rate`); a group with any non-numeric member is skipped
individually; the loop condition `i + 4 <= parts.length` stops before a
trailing partial group. -/
def parseDropGroups : List (List Char) → List ItemDrop
  | a :: b :: c :: d :: rest =>
    (match parseIntChars a, parseIntChars b, parseIntChars c, parseFloatChars d with
     | some itemId, some mn, some mx, some rate =>
       [{ itemId := itemId, itemName := "", minAmount := mn, maxAmount := mx, dropRate := rate }]
     | _, _, _, _ => []) ++ parseDropGroups rest
  | _ => []

/-- Parsing of one `drops.ini` value string. -/
def parseDropsValue (v : String) : List ItemDrop := parseDropGroups (csvParts v.toList)

/-- Parsing of the whole `drops.ini` content (the body of `loadDrops`). -/
def parseDropsContent (content : String) : JMap Int (List ItemDrop) :=
  (splitOnChar '\n' content.toList).foldl
    (fun m line =>
      match parseIniLine line with
      | none => m
      | some kv =>
        match kv.1 with
        | '[' :: _ => m
        | key =>
          match parseIntChars key with
          | none => m
          | some npcId =>
            let ds := parseDropGroups (csvParts kv.2)
            if ds ≠ [] then JMap.set m npcId ds else m)
    []

/-- Model of `loadDrops`: a failed fetch of `drops.ini` is caught and
degrades to an empty map. -/
def loadDrops (src : Option String) : JMap Int (List ItemDrop) :=
  match src with
  | none => []
  | some content => parseDropsContent content

/-- One trade entry of a shop (`ShopData.trades` element). -/
structure ShopTrade where
  itemId : Int
  buyPrice : Int
  sellPrice : Int
  deriving DecidableEq

/-- One craft entry of a shop (`ShopData.crafts` element). -/
structure ShopCraft where
  resultItemId : Int
  ingredients : List CraftIngredient
  deriving DecidableEq

/-- Parsed shop record (`ShopData`). -/
structure ShopData where
  id : Int
  name : String
  trades : List ShopTrade
  crafts : List ShopCraft
  deriving DecidableEq

/-- Trade value parsing: CSV fields in groups of 3 (`itemId,buy,sell`). -/
def parseTradeGroups : List (List Char) → List ShopTrade
  | a :: b :: c :: rest =>
    (match parseIntChars a, parseIntChars b, parseIntChars c with
     | some itemId, some buy, some sell =>
       [{ itemId := itemId, buyPrice := buy, sellPrice := sell }]
     | _, _, _ => []) ++ parseTradeGroups rest
  | _ => []

/-- One ingredient slot of a craft group: both numbers must parse and be
positive, otherwise the slot is dropped. -/
def craftSlot (idc amtc : List Char) : List CraftIngredient :=
  match parseIntChars idc, parseIntChars amtc with
  | some i, some a => if i > 0 ∧ a > 0 then [{ itemId := i, itemName := "", amount := a }] else []
  | _, _ => []

/-- Craft value parsing: CSV fields in groups of 9
(`resultId` + 4 × (`ingredientId,amount`)). -/
def parseCraftGroups : List (List Char) → List ShopCraft
  | a :: r1 :: m1 :: r2 :: m2 :: r3 :: m3 :: r4 :: m4 :: rest =>
    (match parseIntChars a with
     | none => []
     | some resultId =>
       let ings := craftSlot r1 m1 ++ craftSlot r2 m2 ++ craftSlot r3 m3 ++ craftSlot r4 m4
       if ings ≠ [] then [{ resultItemId := resultId, ingredients := ings }] else []) ++
    parseCraftGroups rest
  | _ => []

/-- Parsing of the whole `shops.ini` content (the body of `loadShops`). -/
def parseShopsContent (content : String) : JMap Int ShopData :=
  (splitOnChar '\n' content.toList).foldl
    (fun m line =>
      match parseIniLine line with
      | none => m
      | some kv =>
        match breakAtChar '.' kv.1 with
        | none => m
        | some idProp =>
          match parseIntChars idProp.1 with
          | none => m
          | some shopId =>
            let m1 :=
              match JMap.get m shopId with
              | some _ => m
              | none => JMap.set m shopId { id := shopId, name := "", trades := [], crafts := [] }
            match JMap.get m1 shopId with
            | none => m1
            | some shop =>
              if idProp.2 = "name".toList then
                JMap.set m1 shopId { shop with name := String.mk kv.2 }
              else if idProp.2 = "trade".toList then
                JMap.set m1 shopId
                  { shop with trades := shop.trades ++ parseTradeGroups (csvParts kv.2) }
              else if idProp.2 = "craft".toList then
                JMap.set m1 shopId
                  { shop with crafts := shop.crafts ++ parseCraftGroups (csvParts kv.2) }
              else m1)
    []

/-- Model of `loadShops`: a failed fetch of `shops.ini` is caught and
degrades to an empty map. -/
def loadShops (src : Option String) : JMap Int ShopData :=
  match src with
  | none => []
  | some content => parseShopsContent content

/-- Maximal digit group at the current position; `none` when empty. -/
def digitGroup (cs : List Char) : Option (Nat × List Char) :=
  let ds := cs.takeWhile Char.isDigit
  if ds = [] then none else some (digitsVal ds, cs.dropWhile Char.isDigit)

/-- Comma-separated digit groups, exactly `n` of them. -/
def braceNatsAux : Nat → List Char → Option (List Nat × List Char)
  | 0, cs => some ([], cs)
  | n + 1, cs => do
    let p ← digitGroup cs
    if n = 0 then
      return ([p.1], p.2)
    else
      match p.2 with
      | ',' :: cs2 => do
        let q ← braceNatsAux n cs2
        return (p.1 :: q.1, q.2)
      | _ => none

/-- Match of the regex `\{(\d+),...,(\d+)\}` (with `n` groups) at the
current position. -/
def matchBraceNatsAt (n : Nat) (cs : List Char) : Option (List Nat) :=
  match cs with
  | '{' :: rest =>
    match braceNatsAux n rest with
    | some (vs, '}' :: _) => some vs
    | _ => none
  | _ => none

/-- Leftmost match of `\{(\d+),...,(\d+)\}` anywhere in the string
(model of `String.prototype.match`). -/
def findBraceNats (n : Nat) (cs : List Char) : Option (List Nat) :=
  cs.tails.findSome? (matchBraceNatsAt n)

/-- Parsing of `pets.ini` content (the body of `loadPets`); the resulting
map is keyed by the NPC id (`match[1]`), not by the item id of the line key. -/
def parsePetsContent (content : String) : JMap Int PetInfo :=
  (splitOnChar '\n' content.toList).foldl
    (fun m line =>
      match parseIniLine line with
      | none => m
      | some kv =>
        match parseIntChars kv.1 with
        | none => m
        | some itemId =>
          match findBraceNats 12 kv.2 with
          | some [n1, n2, n3, n4, n5, n6, n7, n8, n9, n10, n11, n12] =>
            JMap.set m (n1 : Int)
              { itemId := itemId, itemName := "",
                stats := { str := (n2 : Int), int := (n3 : Int), wis := (n4 : Int),
                           agi := (n5 : Int), con := (n6 : Int), cha := (n7 : Int),
                           armor := (n8 : Int), evade := (n9 : Int), accuracy := (n10 : Int),
                           minDamage := (n11 : Int), maxDamage := (n12 : Int) } }
          | _ => m)
    []

/-- Model of `loadPets`: the fetch is NOT guarded by a `try`/`catch`, so a
missing `pets.ini` propagates as an error. -/
def loadPets (src : Option String) : Except String (JMap Int PetInfo) :=
  match src with
  | none => Except.error "Failed to load pets.ini"
  | some content => Except.ok (parsePetsContent content)

/-- Parsing of `specialdrops.ini` content (the body of `loadSpecialDrops`). -/
def parseSpecialDropsContent (content : String) : JMap Int SpecialDropInfo :=
  (splitOnChar '\n' content.toList).foldl
    (fun m line =>
      match parseIniLine line with
      | none => m
      | some kv =>
        match parseIntChars kv.1 with
        | none => m
        | some itemId =>
          match findBraceNats 2 kv.2 with
          | some [g1, g2] =>
            JMap.set m itemId { effect := (g1 : Int), serverMessage := g2 = 1 }
          | _ => m)
    []

/-- Model of `loadSpecialDrops`: unguarded fetch, a missing file propagates. -/
def loadSpecialDrops (src : Option String) : Except String (JMap Int SpecialDropInfo) :=
  match src with
  | none => Except.error "Failed to load specialdrops.ini"
  | some content => Except.ok (parseSpecialDropsContent content)

/-- Maximal `[\d.]+` group; its value via `parseFloat` (`0` stands for the
unrepresentable `NaN` of a digit-free capture, which the claims never hit). -/
def floatGroup (cs : List Char) : Option (Rat × List Char) :=
  let ds := cs.takeWhile (fun c => c.isDigit ∨ c = '.')
  if ds = [] then none
  else some ((parseFloatChars ds).getD 0, cs.dropWhile (fun c => c.isDigit ∨ c = '.'))

/-- Match of `\{(\d+),(\d+),([\d.]+),(\d+)(?:,"([^"]*)")?\}` at the current
position (the `specialmobs.ini` entry shape). -/
def matchSpecialMobAt (cs : List Char) : Option SpecialSpawnInfo :=
  match cs with
  | '{' :: r0 => do
    let p1 ← digitGroup r0
    match p1.2 with
    | ',' :: r1 => do
      let p2 ← digitGroup r1
      match p2.2 with
      | ',' :: r2 => do
        let p3 ← floatGroup r2
        match p3.2 with
        | ',' :: r3 => do
          let p4 ← digitGroup r3
          match p4.2 with
          | '}' :: _ =>
            some { spawnFromNpcId := (p1.1 : Int), spawnFromNpcName := "",
                   chance := p3.1, amount := (p4.1 : Int), message := none }
          | ',' :: '"' :: r4 =>
            let msg := r4.takeWhile (fun c => c ≠ '"')
            match r4.dropWhile (fun c => c ≠ '"') with
            | '"' :: '}' :: _ =>
              some { spawnFromNpcId := (p1.1 : Int), spawnFromNpcName := "",
                     chance := p3.1, amount := (p4.1 : Int),
                     message := if msg = [] then none else some (String.mk msg) }
            | _ => none
          | _ => none
        | _ => none
      | _ => none
    | _ => none
  | _ => none

/-- Parsing of `specialmobs.ini` content (the body of `loadSpecialMobs`);
the line key is not inspected at all. -/
def parseSpecialMobsContent (content : String) : List SpecialSpawnInfo :=
  (splitOnChar '\n' content.toList).foldl
    (fun acc line =>
      match parseIniLine line with
      | none => acc
      | some kv =>
        match kv.2.tails.findSome? matchSpecialMobAt with
        | none => acc
        | some info => acc ++ [info])
    []

/-- Model of `loadSpecialMobs`: the fetch of `specialmobs.ini` is NOT
guarded by a `try`/`catch` (unlike `loadDrops`/`loadShops`), so a missing
file propagates as an error. -/
def loadSpecialMobs (src : Option String) : Except String (List SpecialSpawnInfo) :=
  match src with
  | none => Except.error "Failed to load specialmobs.ini"
  | some content => Except.ok (parseSpecialMobsContent content)

/-- Match of `\{(\d+),(\d+),(\d+),([\d.]+)\}` at the current position (the
`npcspellcast.ini` entry shape); returns the remainder after the match. -/
def matchCastAt (cs : List Char) : Option (SpellcastInfo × List Char) :=
  match cs with
  | '{' :: r0 => do
    let p1 ← digitGroup r0
    match p1.2 with
    | ',' :: r1 => do
      let p2 ← digitGroup r1
      match p2.2 with
      | ',' :: r2 => do
        let p3 ← digitGroup r2
        match p3.2 with
        | ',' :: r3 => do
          let p4 ← floatGroup r3
          match p4.2 with
          | '}' :: rest =>
            some ({ spellId := (p1.1 : Int), spellName := "",
                    castType := if p2.1 = 0 then CastType.target else CastType.aoe,
                    damage := (p3.1 : Int), chance := p4.1 }, rest)
          | _ => none
        | _ => none
      | _ => none
    | _ => none
  | _ => none

/-- Scan for all matches (model of `matchAll`): try each position left to
right, continuing after the end of every match.  The fuel equals the
remaining length, which every step strictly decreases, so it never runs
out before the scan is complete. -/
def scanCastsAux : Nat → List Char → List SpellcastInfo
  | 0, _ => []
  | _, [] => []
  | fuel + 1, c :: t =>
    match matchCastAt (c :: t) with
    | some (info, rest) => info :: scanCastsAux fuel rest
    | none => scanCastsAux fuel t

/-- All `\{d,d,d,f\}` matches of a value string, left to right. -/
def scanCasts (cs : List Char) : List SpellcastInfo := scanCastsAux cs.length cs

/-- Parsing of `npcspellcast.ini` content (the body of `loadNpcSpellcasts`). -/
def parseNpcSpellcastsContent (content : String) : JMap Int (List SpellcastInfo) :=
  (splitOnChar '\n' content.toList).foldl
    (fun m line =>
      match parseIniLine line with
      | none => m
      | some kv =>
        match parseIntChars kv.1 with
        | none => m
        | some npcId =>
          let casts := scanCasts kv.2
          if casts ≠ [] then JMap.set m npcId casts else m)
    []

/-- Model of `loadNpcSpellcasts`: unguarded fetch, a missing file propagates. -/
def loadNpcSpellcasts (src : Option String) : Except String (JMap Int (List SpellcastInfo)) :=
  match src with
  | none => Except.error "Failed to load npcspellcast.ini"
  | some content => Except.ok (parseNpcSpellcastsContent content)

/-! ## Pub loaders (`pubLoader.ts`) -/

/-- Decoded EIF (item) record, as delivered by the eolib decoder. -/
structure EifRecord where
  name : String
  graphicId : Int
  deriving DecidableEq

/-- Decoded ENF (NPC) record. -/
structure EnfRecord where
  name : String
  graphicId : Int
  behaviorId : Int
  boss : Bool
  child : Bool
  npcType : Int
  deriving DecidableEq

/-- Decoded ESF (spell) record; eolib calls the shout text `chant`. -/
structure EsfRecord where
  name : String
  chant : String
  graphicId : Int
  deriving DecidableEq

/-- Decoded ECF (class) record. -/
structure EcfRecord where
  name : String
  parentType : Int
  statGroup : Int
  deriving DecidableEq

/-- The body of `loadItems`: ids are 1-based table positions; records whose
name is empty or whitespace-only are dropped. -/
def buildItems (recs : List EifRecord) : JMap Int GameItem :=
  recs.enum.foldl
    (fun m p =>
      let item : GameItem := { id := (p.1 : Int) + 1, name := p.2.name, graphicId := p.2.graphicId }
      if jsTrim item.name ≠ "" then JMap.set m item.id item else m)
    []

/-- Model of `loadItems`: the EIF table is mandatory; a failed fetch or
decode propagates as an error. -/
def loadItems (src : Option (List EifRecord)) : Except String (JMap Int GameItem) :=
  match src with
  | none => Except.error "Failed to load dat001.eif"
  | some recs => Except.ok (buildItems recs)

/-- The body of `loadNpcs`. -/
def buildNpcs (recs : List EnfRecord) : JMap Int GameNpc :=
  recs.enum.foldl
    (fun m p =>
      let npc : GameNpc :=
        { id := (p.1 : Int) + 1, name := p.2.name, graphicId := p.2.graphicId,
          behaviorId := p.2.behaviorId, boss := p.2.boss, child := p.2.child,
          npcType := p.2.npcType }
      if jsTrim npc.name ≠ "" then JMap.set m npc.id npc else m)
    []

/-- Model of `loadNpcs` (mandatory ENF table). -/
def loadNpcs (src : Option (List EnfRecord)) : Except String (JMap Int GameNpc) :=
  match src with
  | none => Except.error "Failed to load dtn001.enf"
  | some recs => Except.ok (buildNpcs recs)

/-- The body of `loadSpells`. -/
def buildSpells (recs : List EsfRecord) : JMap Int GameSpell :=
  recs.enum.foldl
    (fun m p =>
      let spell : GameSpell :=
        { id := (p.1 : Int) + 1, name := p.2.name, shout := p.2.chant, graphicId := p.2.graphicId }
      if jsTrim spell.name ≠ "" then JMap.set m spell.id spell else m)
    []

/-- Model of `loadSpells` (mandatory ESF table). -/
def loadSpells (src : Option (List EsfRecord)) : Except String (JMap Int GameSpell) :=
  match src with
  | none => Except.error "Failed to load dsl001.esf"
  | some recs => Except.ok (buildSpells recs)

/-- The body of `loadClasses`. -/
def buildClasses (recs : List EcfRecord) : JMap Int GameClass :=
  recs.enum.foldl
    (fun m p =>
      let cls : GameClass :=
        { id := (p.1 : Int) + 1, name := p.2.name, parentType := p.2.parentType,
          statGroup := p.2.statGroup }
      if jsTrim cls.name ≠ "" then JMap.set m cls.id cls else m)
    []

/-- Model of `loadClasses` (mandatory ECF table). -/
def loadClasses (src : Option (List EcfRecord)) : Except String (JMap Int GameClass) :=
  match src with
  | none => Except.error "Failed to load dat001.ecf"
  | some recs => Except.ok (buildClasses recs)

/-! ## Map loader (`mapLoader.ts`) -/

/-- Embedded NPC placement record of a decoded EMF map. -/
structure EmfNpc where
  id : Int
  x : Int
  y : Int
  spawnType : Int
  spawnTime : Int
  amount : Int
  deriving DecidableEq

/-- Decoded EMF map: the name and the NPC placements (the only parts read). -/
structure EmfData where
  name : String
  npcs : List EmfNpc
  deriving DecidableEq

/-- NPC spawn with its map attached (`MapNpcSpawn`). -/
structure MapNpcSpawn where
  mapId : Int
  mapName : String
  npcId : Int
  x : Int
  y : Int
  spawnType : Int
  spawnTime : Int
  amount : Int
  deriving DecidableEq

/-- The fixed scan range of `loadMaps`: ids 0 through 400 inclusive. -/
def mapIdRange : List Int := List.map Int.ofNat (List.range 401)

/-- The fixed scan range of `loadQuests`: ids 1 through 150 inclusive. -/
def questIdRange : List Int := List.map (fun n => Int.ofNat n + 1) (List.range 150)

/-- The loop body of `loadMaps` for one id: a missing, short or corrupt
file (fetch `none`) skips the id; an empty decoded name falls back to
`Map <id>`. -/
def loadMapsStep (fetch : Int → Option EmfData)
    (acc : JMap Int GameMap × List MapNpcSpawn) (id : Int) :
    JMap Int GameMap × List MapNpcSpawn :=
  match fetch id with
  | none => acc
  | some emf =>
    let nm := if emf.name ≠ "" then emf.name else "Map " ++ toString id
    (JMap.set acc.1 id { id := id, name := nm },
     acc.2 ++ emf.npcs.map (fun n =>
       { mapId := id, mapName := nm, npcId := n.id, x := n.x, y := n.y,
         spawnType := n.spawnType, spawnTime := n.spawnTime, amount := n.amount }))

/-- Model of `loadMaps`: scan exactly the ids 0 through 400. -/
def loadMaps (fetch : Int → Option EmfData) : JMap Int GameMap × List MapNpcSpawn :=
  mapIdRange.foldl (loadMapsStep fetch) ([], [])

/-! ## Quest loader (`questLoader.ts`) -/

/-- Case-insensitive match of the (lowercase) pattern as a prefix; returns
the remainder. -/
def matchCI (pat : List Char) (cs : List Char) : Option (List Char) :=
  if (cs.take pat.length).map Char.toLower = pat then some (cs.drop pat.length) else none

/-- Match of `kw\s*\(\s*(\d+)` at the current position (case-insensitive),
the shape of the one-argument quest directives. -/
def matchKwNumAt (kw : List Char) (cs : List Char) : Option Int := do
  let r0 ← matchCI kw cs
  match r0.dropWhile Char.isWhitespace with
  | '(' :: r1 =>
    let p ← digitGroup (r1.dropWhile Char.isWhitespace)
    some (p.1 : Int)
  | _ => none

/-- Match of `kw\s*\(\s*(\d+)\s*,\s*(\d+)` at the current position, the
shape of the two-argument quest directives. -/
def matchKwNum2At (kw : List Char) (cs : List Char) : Option (Int × Int) := do
  let r0 ← matchCI kw cs
  match r0.dropWhile Char.isWhitespace with
  | '(' :: r1 => do
    let p ← digitGroup (r1.dropWhile Char.isWhitespace)
    match p.2.dropWhile Char.isWhitespace with
    | ',' :: r2 => do
      let q ← digitGroup (r2.dropWhile Char.isWhitespace)
      some ((p.1 : Int), (q.1 : Int))
    | _ => none
  | _ => none

/-- Match of `questname\s+["']([^"']+)["']` at the current position. -/
def matchQuestNameAt (cs : List Char) : Option String := do
  let r0 ← matchCI "questname".toList cs
  match r0 with
  | c :: _ =>
    if c.isWhitespace then
      match r0.dropWhile Char.isWhitespace with
      | q :: r1 =>
        if q = '"' ∨ q = '\'' then
          let nm := r1.takeWhile (fun d => d ≠ '"' ∧ d ≠ '\'')
          if nm = [] then none
          else
            match r1.dropWhile (fun d => d ≠ '"' ∧ d ≠ '\'') with
            | _ :: _ => some (String.mk nm)
            | [] => none
        else none
      | [] => none
    else none
  | [] => none

/-- Leftmost match of a one-argument directive anywhere in the line. -/
def findKwNum (kw : List Char) (line : List Char) : Option Int :=
  line.tails.findSome? (matchKwNumAt kw)

/-- Leftmost match of a two-argument directive anywhere in the line. -/
def findKwNum2 (kw : List Char) (line : List Char) : Option (Int × Int) :=
  line.tails.findSome? (matchKwNum2At kw)

/-- Leftmost match of the quest-name directive anywhere in the line. -/
def findQuestName (line : List Char) : Option String :=
  line.tails.findSome? matchQuestNameAt

/-- Accumulator state of `parseQuestDSL`. -/
structure QuestParseState where
  name : String
  involvedNpcs : JMap Int QuestNpcRef
  rewardItems : List QuestRewardItem
  rewardExp : Int
  killRequirements : List QuestKillReq
  itemRequirements : List QuestItemReq

/-- Record a dialogue NPC reference (deduplicated through the map key). -/
def addNpcRef (st : QuestParseState) (v : Option Int) : QuestParseState :=
  match v with
  | some npcId =>
    if npcId > 0 then
      { st with involvedNpcs := JMap.set st.involvedNpcs npcId { npcId := npcId } }
    else st
  | none => st

/-- Processing of one (trimmed) quest line: each directive shape is
searched for independently, exactly as the chain of `match` calls does. -/
def questLineStep (st : QuestParseState) (line : List Char) : QuestParseState :=
  let st := match findQuestName line with
    | some nm => { st with name := nm }
    | none => st
  let st := addNpcRef st (findKwNum "addnpctext".toList line)
  let st := addNpcRef st (findKwNum "addnpcinput".toList line)
  let st := addNpcRef st (findKwNum "addnpcchat".toList line)
  let st := addNpcRef st (findKwNum "talkedtonpc".toList line)
  let st := match findKwNum2 "giveitem".toList line with
    | some p => { st with rewardItems := st.rewardItems ++ [{ itemId := p.1, amount := p.2 }] }
    | none => st
  let st := match findKwNum "giveexp".toList line with
    | some v => { st with rewardExp := st.rewardExp + v }
    | none => st
  let st := match findKwNum2 "killednpcs".toList line with
    | some p =>
      { st with killRequirements := st.killRequirements ++ [{ npcId := p.1, count := p.2 }] }
    | none => st
  match findKwNum2 "lostitems".toList line with
  | some p =>
    { st with itemRequirements := st.itemRequirements ++ [{ itemId := p.1, count := p.2 }] }
  | none => st

/-- Model of `parseQuestDSL`: mine the six directive shapes line by line;
a file yielding neither a name override nor an NPC reference is not a
quest and is excluded. -/
def parseQuestDSL (id : Int) (content : String) : Option GameQuest :=
  let st0 : QuestParseState :=
    { name := "Quest " ++ toString id, involvedNpcs := [], rewardItems := [],
      rewardExp := 0, killRequirements := [], itemRequirements := [] }
  let st := ((splitOnChar '\n' content.toList).map trimChars).foldl questLineStep st0
  if st.name = "Quest " ++ toString id ∧ st.involvedNpcs = [] then none
  else
    some { id := id, name := st.name, involvedNpcs := JMap.values st.involvedNpcs,
           rewardItems := st.rewardItems, rewardExp := st.rewardExp,
           killRequirements := st.killRequirements,
           itemRequirements := st.itemRequirements }

/-- The loop body of `loadQuests` for one id: a missing file or a
non-quest parse skips the id. -/
def loadQuestsStep (fetch : Int → Option String) (m : JMap Int GameQuest) (id : Int) :
    JMap Int GameQuest :=
  match fetch id with
  | none => m
  | some content =>
    match parseQuestDSL id content with
    | none => m
    | some q => JMap.set m id q

/-- Model of `loadQuests`: scan exactly the ids 1 through 150. -/
def loadQuests (fetch : Int → Option String) : JMap Int GameQuest :=
  questIdRange.foldl (loadQuestsStep fetch) []

/-! ## Cross-reference indexer (`indexer.ts`) -/

/-- Inner loop of `indexDrops` over one NPC's drop table: resolve each
item id; on a hit, set the item name on the drop entry, keep it for the
NPC side, and push the mirrored `NpcDrop` onto the item; on a miss, skip
the entry entirely. -/
def resolveNpcDrops (items : JMap Int GameItem) (npcId : Int) (npcName : String) :
    List ItemDrop → JMap Int GameItem × List ItemDrop
  | [] => (items, [])
  | d :: rest =>
    match JMap.get items d.itemId with
    | none => resolveNpcDrops items npcId npcName rest
    | some item =>
      let items1 := JMap.set items d.itemId
        { item with dropsFrom := item.dropsFrom ++
            [{ npcId := npcId, npcName := npcName, minAmount := d.minAmount,
               maxAmount := d.maxAmount, dropRate := d.dropRate }] }
      let p := resolveNpcDrops items1 npcId npcName rest
      (p.1, { d with itemName := item.name } :: p.2)

/-- Model of `indexDrops`: for each drop table whose NPC exists, reset the
NPC's `drops` to the resolved entries (the code sets `npc.drops = []` and
pushes as it resolves) and mirror each resolved entry onto the item. -/
def indexDrops (items : JMap Int GameItem) (npcs : JMap Int GameNpc) :
    JMap Int (List ItemDrop) → JMap Int GameItem × JMap Int GameNpc
  | [] => (items, npcs)
  | (npcId, ds) :: rest =>
    match JMap.get npcs npcId with
    | none => indexDrops items npcs rest
    | some npc =>
      let p := resolveNpcDrops items npcId npc.name ds
      indexDrops p.1 (JMap.set npcs npcId { npc with drops := p.2 }) rest

/-- Inner loop of `indexShops` over one shop's trades: items that do not
resolve are skipped before either side is touched. -/
def indexShopTrades (items : JMap Int GameItem) (shopId : Int) (shopName : String)
    (npcInfo : Option (Int × String)) :
    List ShopTrade → JMap Int GameItem × List NpcShopItem
  | [] => (items, [])
  | t :: rest =>
    match JMap.get items t.itemId with
    | none => indexShopTrades items shopId shopName npcInfo rest
    | some item =>
      let items1 := JMap.set items t.itemId
        { item with soldAt := item.soldAt ++
            [{ shopId := shopId, shopName := shopName, npcId := npcInfo.map Prod.fst,
               npcName := npcInfo.map Prod.snd, buyPrice := t.buyPrice,
               sellPrice := t.sellPrice }] }
      let p := indexShopTrades items1 shopId shopName npcInfo rest
      (p.1, { itemId := t.itemId, itemName := item.name, buyPrice := t.buyPrice,
              sellPrice := t.sellPrice } :: p.2)

/-- Resolution of the display names of a craft's ingredients. -/
def resolveIngredients (items : JMap Int GameItem) (ings : List CraftIngredient) :
    List CraftIngredient :=
  ings.map (fun ing =>
    match JMap.get items ing.itemId with
    | some it => { ing with itemName := it.name }
    | none => ing)

/-- Inner loop of `indexShops` over one shop's crafts. -/
def indexShopCrafts (items : JMap Int GameItem) (shopId : Int) (shopName : String)
    (npcInfo : Option (Int × String)) :
    List ShopCraft → JMap Int GameItem × List NpcCraftItem
  | [] => (items, [])
  | c :: rest =>
    match JMap.get items c.resultItemId with
    | none => indexShopCrafts items shopId shopName npcInfo rest
    | some resultItem =>
      let ings := resolveIngredients items c.ingredients
      let items1 := JMap.set items c.resultItemId
        { resultItem with craftedAt := resultItem.craftedAt ++
            [{ shopId := shopId, shopName := shopName, npcId := npcInfo.map Prod.fst,
               npcName := npcInfo.map Prod.snd, ingredients := ings }] }
      let p := indexShopCrafts items1 shopId shopName npcInfo rest
      (p.1, { resultItemId := c.resultItemId, resultItemName := resultItem.name,
              ingredients := ings } :: p.2)

/-- Model of `indexShops`: the NPC for a shop is looked up by the shop id
(a heuristic coincidence of ids); trades and crafts are attached to items
always and to the NPC only when it exists. -/
def indexShops (items : JMap Int GameItem) (npcs : JMap Int GameNpc) :
    JMap Int ShopData → JMap Int GameItem × JMap Int GameNpc
  | [] => (items, npcs)
  | (shopId, shop) :: rest =>
    let npcInfo := (JMap.get npcs shopId).map (fun n => (n.id, n.name))
    let pt := indexShopTrades items shopId shop.name npcInfo shop.trades
    let pc := indexShopCrafts pt.1 shopId shop.name npcInfo shop.crafts
    let npcs1 :=
      match JMap.get npcs shopId with
      | none => npcs
      | some npc =>
        JMap.set npcs shopId
          { npc with shopItems := npc.shopItems ++ pt.2,
                     craftItems := npc.craftItems ++ pc.2 }
    indexShops pc.1 npcs1 rest

/-- Model of `indexPets`: link only when both the NPC and the item exist. -/
def indexPets (items : JMap Int GameItem) (npcs : JMap Int GameNpc) :
    JMap Int PetInfo → JMap Int GameNpc
  | [] => npcs
  | (npcId, petInfo) :: rest =>
    let npcs1 :=
      match JMap.get npcs npcId, JMap.get items petInfo.itemId with
      | some npc, some item =>
        JMap.set npcs npcId { npc with petVersion := some { petInfo with itemName := item.name } }
      | _, _ => npcs
    indexPets items npcs1 rest

/-- Model of `indexSpecialDrops`. -/
def indexSpecialDrops (items : JMap Int GameItem) :
    JMap Int SpecialDropInfo → JMap Int GameItem
  | [] => items
  | (itemId, info) :: rest =>
    let items1 :=
      match JMap.get items itemId with
      | some item => JMap.set items itemId { item with isSpecialDrop := some info }
      | none => items
    indexSpecialDrops items1 rest

/-- Model of `indexSpecialMobs`: annotate the source NPC of each special
spawn, copying its name onto the spawn record. -/
def indexSpecialMobs (npcs : JMap Int GameNpc) :
    List SpecialSpawnInfo → JMap Int GameNpc
  | [] => npcs
  | spawn :: rest =>
    let npcs1 :=
      match JMap.get npcs spawn.spawnFromNpcId with
      | some npc =>
        JMap.set npcs spawn.spawnFromNpcId
          { npc with isSpecialSpawn := some { spawn with spawnFromNpcName := npc.name } }
      | none => npcs
    indexSpecialMobs npcs1 rest

/-- Name resolution of one spellcast entry. -/
def resolveCast (spells : JMap Int GameSpell) (c : SpellcastInfo) : SpellcastInfo :=
  match JMap.get spells c.spellId with
  | some sp => { c with spellName := sp.name }
  | none => c

/-- Model of `indexNpcSpellcasts`: resolve the spell names of all parsed
entries, then attach only the FIRST entry to the NPC. -/
def indexNpcSpellcasts (npcs : JMap Int GameNpc) (spells : JMap Int GameSpell) :
    JMap Int (List SpellcastInfo) → JMap Int GameNpc
  | [] => npcs
  | (npcId, casts) :: rest =>
    let npcs1 :=
      match JMap.get npcs npcId with
      | none => npcs
      | some npc =>
        match casts.map (resolveCast spells) with
        | c :: _ => JMap.set npcs npcId { npc with spellcasting := some c }
        | [] => npcs
    indexNpcSpellcasts npcs1 spells rest

/-- Model of `indexNpcSpawns`: attach every placement record whose NPC
exists. -/
def indexNpcSpawns (npcs : JMap Int GameNpc) :
    List MapNpcSpawn → JMap Int GameNpc
  | [] => npcs
  | spawn :: rest =>
    let npcs1 :=
      match JMap.get npcs spawn.npcId with
      | none => npcs
      | some npc =>
        JMap.set npcs spawn.npcId
          { npc with spawnsOnMaps := npc.spawnsOnMaps ++
              [{ mapId := spawn.mapId, mapName := spawn.mapName, x := spawn.x, y := spawn.y,
                 spawnType := spawn.spawnType, spawnTime := spawn.spawnTime,
                 amount := spawn.amount }] }
    indexNpcSpawns npcs1 rest

/-- Model of the vendor-id index built before quest indexing: behavior id
to table key, for NPCs with a positive behavior id.  A held NPC object is
the entry of the `npcs` table at its key, so storing the key models the
object reference. -/
def buildVendorIndex (npcs : JMap Int GameNpc) : JMap Int Int :=
  npcs.foldl
    (fun m p => if p.2.behaviorId > 0 then JMap.set m p.2.behaviorId p.1 else m)
    []

/-- Inner loop of `indexQuests` over a quest's dialogue NPC references:
resolve via the vendor-id index, fill the resolved fields into the quest
entry, and append a dialogue involvement onto the NPC. -/
def indexQuestNpcRefs (npcs : JMap Int GameNpc) (vidx : JMap Int Int)
    (qid : Int) (qname : String) :
    List QuestNpcRef → JMap Int GameNpc × List QuestNpcRef
  | [] => (npcs, [])
  | e :: rest =>
    match (JMap.get vidx e.npcId).bind (fun k => (JMap.get npcs k).map (fun n => (k, n))) with
    | none =>
      let p := indexQuestNpcRefs npcs vidx qid qname rest
      (p.1, e :: p.2)
    | some kn =>
      let npcs1 := JMap.set npcs kn.1
        { kn.2 with questInvolvement := kn.2.questInvolvement ++
            [{ questId := qid, questName := qname, role := QuestRole.dialogue }] }
      let p := indexQuestNpcRefs npcs1 vidx qid qname rest
      (p.1, { e with npcName := kn.2.name, enfId := some kn.2.id,
                     graphicId := some kn.2.graphicId } :: p.2)

/-- Inner loop of `indexQuests` over a quest's item rewards. -/
def indexQuestRewards (items : JMap Int GameItem) (qid : Int) (qname : String) :
    List QuestRewardItem → JMap Int GameItem × List QuestRewardItem
  | [] => (items, [])
  | r :: rest =>
    match JMap.get items r.itemId with
    | none =>
      let p := indexQuestRewards items qid qname rest
      (p.1, r :: p.2)
    | some item =>
      let items1 := JMap.set items r.itemId
        { item with questRewards := item.questRewards ++
            [{ questId := qid, questName := qname, amount := r.amount }] }
      let p := indexQuestRewards items1 qid qname rest
      (p.1, { r with itemName := item.name } :: p.2)

/-- Inner loop of `indexQuests` over a quest's kill requirements: these
reference NPCs by primary (ENF) id directly, with no vendor-id
translation. -/
def indexQuestKills (npcs : JMap Int GameNpc) (qid : Int) (qname : String) :
    List QuestKillReq → JMap Int GameNpc × List QuestKillReq
  | [] => (npcs, [])
  | kr :: rest =>
    match JMap.get npcs kr.npcId with
    | none =>
      let p := indexQuestKills npcs qid qname rest
      (p.1, kr :: p.2)
    | some npc =>
      let npcs1 := JMap.set npcs kr.npcId
        { npc with questInvolvement := npc.questInvolvement ++
            [{ questId := qid, questName := qname, role := QuestRole.kill }] }
      let p := indexQuestKills npcs1 qid qname rest
      (p.1, { kr with npcName := npc.name, enfId := some npc.id,
                      graphicId := some npc.graphicId } :: p.2)

/-- Inner loop of `indexQuests` over a quest's item requirements. -/
def indexQuestItemReqs (items : JMap Int GameItem) (qid : Int) (qname : String) :
    List QuestItemReq → JMap Int GameItem × List QuestItemReq
  | [] => (items, [])
  | req :: rest =>
    match JMap.get items req.itemId with
    | none =>
      let p := indexQuestItemReqs items qid qname rest
      (p.1, req :: p.2)
    | some item =>
      let items1 := JMap.set items req.itemId
        { item with questRequirements := item.questRequirements ++
            [{ questId := qid, questName := qname, count := req.count }] }
      let p := indexQuestItemReqs items1 qid qname rest
      (p.1, { req with itemName := item.name } :: p.2)

/-- Model of `indexQuests`: per quest, process dialogue references, item
rewards, kill requirements and item requirements in order; the quest
objects are mutated in place, modelled by writing the updated quest back
at its key. -/
def indexQuests (npcs : JMap Int GameNpc) (items : JMap Int GameItem)
    (quests : JMap Int GameQuest) (vidx : JMap Int Int) :
    List (Int × GameQuest) → JMap Int GameNpc × JMap Int GameItem × JMap Int GameQuest
  | [] => (npcs, items, quests)
  | (qkey, q) :: rest =>
    let pn := indexQuestNpcRefs npcs vidx q.id q.name q.involvedNpcs
    let pr := indexQuestRewards items q.id q.name q.rewardItems
    let pk := indexQuestKills pn.1 q.id q.name q.killRequirements
    let pi := indexQuestItemReqs pr.1 q.id q.name q.itemRequirements
    let q1 := { q with involvedNpcs := pn.2, rewardItems := pr.2,
                       killRequirements := pk.2, itemRequirements := pi.2 }
    indexQuests pk.1 pi.1 (JMap.set quests qkey q1) vidx rest

/-- Name-index construction: keyed by the lowercased display name, skipping
empty names; a later entity with the same (lowercased) name overwrites an
earlier one. -/
def buildNameIndex {α : Type} (nameOf : α → String) (xs : List α) : JMap String α :=
  xs.foldl
    (fun m x => if nameOf x ≠ "" then JMap.set m (jsToLower (nameOf x)) x else m)
    []

/-- The raw sources of one build: `none` models a rejected fetch (missing
file / network failure).  The four binary tables arrive as decoded record
lists (the eolib decoder is an external library); a decode fault is also
`none`. -/
structure DataSources where
  eif : Option (List EifRecord)
  enf : Option (List EnfRecord)
  esf : Option (List EsfRecord)
  ecf : Option (List EcfRecord)
  dropsIni : Option String
  shopsIni : Option String
  petsIni : Option String
  specialDropsIni : Option String
  specialMobsIni : Option String
  npcSpellcastIni : Option String
  mapFile : Int → Option EmfData
  questFile : Int → Option String

/-- Model of `loadGameDatabase`: load the four mandatory tables, then the
relationship sources (`Promise.all` rejection resolved in array order),
then run the stitching passes in their order, build the vendor-id index,
index quests, and build the name indices from the final tables. -/
def loadGameDatabase (src : DataSources) : Except String GameDatabase := do
  let items0 ← loadItems src.eif
  let npcs0 ← loadNpcs src.enf
  let spells ← loadSpells src.esf
  let classes ← loadClasses src.ecf
  let drops := loadDrops src.dropsIni
  let shops := loadShops src.shopsIni
  let pets ← loadPets src.petsIni
  let specialDrops ← loadSpecialDrops src.specialDropsIni
  let specialMobs ← loadSpecialMobs src.specialMobsIni
  let npcSpellcasts ← loadNpcSpellcasts src.npcSpellcastIni
  let mapData := loadMaps src.mapFile
  let quests := loadQuests src.questFile
  let p1 := indexDrops items0 npcs0 drops
  let p2 := indexShops p1.1 p1.2 shops
  let npcs3 := indexPets p2.1 p2.2 pets
  let items4 := indexSpecialDrops p2.1 specialDrops
  let npcs5 := indexSpecialMobs npcs3 specialMobs
  let npcs6 := indexNpcSpellcasts npcs5 spells npcSpellcasts
  let npcs7 := indexNpcSpawns npcs6 mapData.2
  let vidx := buildVendorIndex npcs7
  let pq := indexQuests npcs7 items4 quests vidx quests
  let itemsF := pq.2.1
  let npcsF := pq.1
  let questsF := pq.2.2
  Except.ok
    { items := itemsF, npcs := npcsF, spells := spells, classes := classes,
      maps := mapData.1, quests := questsF,
      itemsByName := buildNameIndex GameItem.name (JMap.values itemsF),
      npcsByName := buildNameIndex GameNpc.name (JMap.values npcsF),
      spellsByName := buildNameIndex GameSpell.name (JMap.values spells) }

/-! ## Lemmas about the `Map` model -/

theorem JMap.get_set_self {κ α : Type} [DecidableEq κ] (m : JMap κ α) (k : κ) (v : α) :
    JMap.get (JMap.set m k v) k = some v := by
  induction m with
  | nil => simp [JMap.set, JMap.get]
  | cons p t ih =>
    rcases p with ⟨k', v'⟩
    by_cases h : k = k'
    · simp [JMap.set, JMap.get, h]
    · simp [JMap.set, JMap.get, h, ih]

theorem JMap.get_set_ne {κ α : Type} [DecidableEq κ] (m : JMap κ α) (k k' : κ) (v : α)
    (h : k' ≠ k) : JMap.get (JMap.set m k v) k' = JMap.get m k' := by
  induction m with
  | nil => simp [JMap.set, JMap.get, h]
  | cons p t ih =>
    rcases p with ⟨k1, v1⟩
    by_cases h1 : k = k1
    · subst h1
      simp [JMap.set, JMap.get, h]
    · by_cases h2 : k' = k1
      · simp [JMap.set, JMap.get, h1, h2]
      · simp [JMap.set, JMap.get, h1, h2, ih]

theorem JMap.get_mem_values {κ α : Type} [DecidableEq κ] (m : JMap κ α) (k : κ) (v : α)
    (h : JMap.get m k = some v) : v ∈ JMap.values m := by
  induction m with
  | nil => simp [JMap.get] at h
  | cons p t ih =>
    rcases p with ⟨k1, v1⟩
    by_cases h1 : k = k1
    · simp [JMap.get, h1] at h
      simp [JMap.values, h]
    · simp [JMap.get, h1] at h
      simp [JMap.values] at ih ⊢
      exact Or.inr (ih h)

theorem JMap.mem_values_set {κ α : Type} [DecidableEq κ] (m : JMap κ α) (k : κ) (v u : α)
    (h : u ∈ JMap.values (JMap.set m k v)) : u ∈ JMap.values m ∨ u = v := by
  induction m with
  | nil =>
    simp [JMap.set, JMap.values] at h
    exact Or.inr h
  | cons p t ih =>
    rcases p with ⟨k1, v1⟩
    by_cases h1 : k = k1
    · simp [JMap.set, h1, JMap.values] at h
      rcases h with h | h
      · exact Or.inr h
      · exact Or.inl (by simp [JMap.values, h])
    · simp [JMap.set, h1, JMap.values] at h
      rcases h with h | h
      · exact Or.inl (by simp [JMap.values, h])
      · rcases ih (by simpa [JMap.values] using h) with h2 | h2
        · exact Or.inl (by simp [JMap.values] at h2 ⊢; exact Or.inr h2)
        · exact Or.inr h2

theorem JMap.values_map_set {κ α β : Type} [DecidableEq κ] (f : α → β) (m : JMap κ α)
    (k : κ) (v w : α) (hget : JMap.get m k = some w) (hf : f v = f w) :
    (JMap.values (JMap.set m k v)).map f = (JMap.values m).map f := by
  induction m with
  | nil => simp [JMap.get] at hget
  | cons p t ih =>
    rcases p with ⟨k1, v1⟩
    by_cases h1 : k = k1
    · simp [JMap.get, h1] at hget
      subst hget
      simp [JMap.set, h1, JMap.values, hf]
    · simp [JMap.get, h1] at hget
      simp [JMap.set, h1, JMap.values] at ih ⊢
      exact ih hget

/-! ## Lemmas about CSV splitting (empty-field compaction) -/

theorem splitOnCharCore_append (sep : Char) (a b : List Char) :
    splitOnCharCore sep (a ++ sep :: b) =
      ((splitOnCharCore sep a).1,
       (splitOnCharCore sep a).2 ++ splitOnChar sep b) := by
  induction a with
  | nil => simp [splitOnCharCore, splitOnChar]
  | cons c t ih =>
    by_cases h : c = sep
    · simp [splitOnCharCore, h, ih]
    · simp [splitOnCharCore, h, ih]

theorem splitOnChar_append (sep : Char) (a b : List Char) :
    splitOnChar sep (a ++ sep :: b) = splitOnChar sep a ++ splitOnChar sep b := by
  simp [splitOnChar, splitOnCharCore_append]

theorem trimChars_nil : trimChars [] = [] := by
  simp [trimChars]

theorem csvParts_append (a b : List Char) :
    csvParts (a ++ ',' :: b) = csvParts a ++ csvParts b := by
  simp [csvParts, splitOnChar_append, List.filter_append]

/-- Inserting an extra comma (an empty CSV field) does not change the
computed field list at all: the empty field is removed before grouping. -/
theorem csvParts_double_comma (a b : List Char) :
    csvParts (a ++ ',' :: ',' :: b) = csvParts (a ++ ',' :: b) := by
  have h1 : a ++ ',' :: ',' :: b = a ++ ',' :: ([] ++ ',' :: b) := by simp
  rw [h1, csvParts_append, csvParts_append, csvParts_append]
  simp [csvParts, splitOnChar, splitOnCharCore, trimChars_nil]

/-! ## Group parsing: trailing fields -/

theorem parseDropGroups_take_aux :
    ∀ (n : Nat) (l : List (List Char)), l.length ≤ n →
      parseDropGroups (l.take (4 * (l.length / 4))) = parseDropGroups l := by
  intro n
  induction n with
  | zero =>
    intro l hl
    have : l = [] := List.length_eq_zero.mp (Nat.le_zero.mp hl)
    subst this
    rfl
  | succ n ih =>
    intro l hl
    rcases l with _ | ⟨a, _ | ⟨b, _ | ⟨c, _ | ⟨d, rest⟩⟩⟩⟩
    · rfl
    · simp [parseDropGroups]
    · simp [parseDropGroups]
    · simp [parseDropGroups]
    · have hr : rest.length ≤ n := by
        simp [List.length_cons] at hl
        omega
      have h4 : 4 * ((a :: b :: c :: d :: rest).length / 4) =
          4 * (rest.length / 4) + 4 := by
        simp [List.length_cons]
        omega
      have htake : ∀ (k : Nat),
          List.take (k + 4) (a :: b :: c :: d :: rest) = a :: b :: c :: d :: List.take k rest :=
        fun k => rfl
      rw [h4, htake]
      show parseDropGroups (a :: b :: c :: d :: List.take (4 * (rest.length / 4)) rest) = _
      simp only [parseDropGroups]
      rw [ih rest hr]

/-- Only the complete leading groups of 4 fields contribute drop entries;
the trailing `length % 4` fields are ignored. -/
theorem parseDropGroups_take (l : List (List Char)) :
    parseDropGroups (l.take (4 * (l.length / 4))) = parseDropGroups l :=
  parseDropGroups_take_aux l.length l (Nat.le_refl _)

/-! ## Claim C2 -/

/-- Claim C2, counterexample to the parenthetical: appending 5 extra values
(`7,8,9,10,11`) after the two complete groups does NOT contribute zero
entries — the first four of them form a further complete group, and only
the single leftover value is dropped, so the parse has three entries. -/
theorem drops_five_extra_values_yield_an_entry :
    parseDropsValue "10,1,2,5.5,20,3,4,1.0,7,8,9,10,11" =
      [{ itemId := 10, itemName := "", minAmount := 1, maxAmount := 2, dropRate := 5.5 },
       { itemId := 20, itemName := "", minAmount := 3, maxAmount := 4, dropRate := 1 },
       { itemId := 7, itemName := "", minAmount := 8, maxAmount := 9, dropRate := 10 }] := by
  with_unfolding_all decide

/-- Claim C2 (amended): parsing `"10,1,2,5.5,20,3,4,1.0"` as CSV groups of
4 yields exactly the two drop entries `{10,1,2,5.5}` and `{20,3,4,1.0}`;
and for every field list, only the leading complete groups of 4 are
parsed — the trailing `length % 4` leftover fields (at most 3) are dropped
entirely and contribute zero entries.  (Extra values first fill further
complete groups: see the counterexample for 5 extras.) -/
theorem drops_csv_group_parsing :
    parseDropsValue "10,1,2,5.5,20,3,4,1.0" =
      [{ itemId := 10, itemName := "", minAmount := 1, maxAmount := 2, dropRate := 5.5 },
       { itemId := 20, itemName := "", minAmount := 3, maxAmount := 4, dropRate := 1 }] ∧
    ∀ l : List (List Char),
      parseDropGroups l = parseDropGroups (l.take (4 * (l.length / 4))) := by
  refine ⟨by with_unfolding_all decide, ?_⟩
  intro l
  exact (parseDropGroups_take l).symm

/-! ## Claim C10 -/

/-- Claim C10: the CSV value parsers for drops, shop trades and shop
crafts remove empty fields (from consecutive or trailing commas) before
cutting the fields into fixed-size groups, so an empty field shifts every
later value into an earlier position and changes the group boundaries of
the remainder of the line, instead of only the affected group being
skipped.  Formally: inserting an empty field changes nothing — the field
list is as if the empty field were never there — witnessed for all three
group sizes, and concretely on a drops line where the value after the
empty field slides into the rate slot of the first group. -/
theorem csv_empty_field_shifts_groups :
    (∀ a b : List Char,
      csvParts (a ++ ',' :: ',' :: b) = csvParts (a ++ ',' :: b) ∧
      parseDropGroups (csvParts (a ++ ',' :: ',' :: b)) =
        parseDropGroups (csvParts (a ++ ',' :: b)) ∧
      parseTradeGroups (csvParts (a ++ ',' :: ',' :: b)) =
        parseTradeGroups (csvParts (a ++ ',' :: b)) ∧
      parseCraftGroups (csvParts (a ++ ',' :: ',' :: b)) =
        parseCraftGroups (csvParts (a ++ ',' :: b))) ∧
    parseDropsValue "10,1,2,,5.5,20,3,4,1.0" =
      [{ itemId := 10, itemName := "", minAmount := 1, maxAmount := 2, dropRate := 5.5 },
       { itemId := 20, itemName := "", minAmount := 3, maxAmount := 4, dropRate := 1 }] := by
  constructor
  · intro a b
    have h := csvParts_double_comma a b
    exact ⟨h, by rw [h], by rw [h], by rw [h]⟩
  · with_unfolding_all decide

/-! ## More `Map` lemmas for the pass characterizations -/

theorem JMap.get_eq_none_of_not_mem {κ α : Type} [DecidableEq κ] (m : JMap κ α) (k : κ)
    (h : k ∉ m.map Prod.fst) : JMap.get m k = none := by
  induction m with
  | nil => rfl
  | cons p t ih =>
    rw [List.map_cons, List.mem_cons] at h
    push_neg at h
    rcases p with ⟨k1, v1⟩
    simp only [JMap.get]
    rw [if_neg h.1]
    exact ih h.2

theorem JMap.mem_of_get_eq_some {κ α : Type} [DecidableEq κ] (m : JMap κ α) (k : κ) (v : α)
    (h : JMap.get m k = some v) : (k, v) ∈ m := by
  induction m with
  | nil => simp [JMap.get] at h
  | cons p t ih =>
    rcases p with ⟨k1, v1⟩
    by_cases h1 : k = k1
    · simp [JMap.get, h1] at h
      simp [h1, h]
    · simp [JMap.get, h1] at h
      simp [ih h]

theorem JMap.get_of_mem_nodup {κ α : Type} [DecidableEq κ] (m : JMap κ α) (k : κ) (v : α)
    (hmem : (k, v) ∈ m) (hnd : (m.map Prod.fst).Nodup) : JMap.get m k = some v := by
  induction m with
  | nil => simp at hmem
  | cons p t ih =>
    rcases p with ⟨k1, v1⟩
    rw [List.map_cons] at hnd
    have hnd1 := List.nodup_cons.mp hnd
    rcases List.mem_cons.mp hmem with h | h
    · have hk : k = k1 := congrArg Prod.fst h
      have hv : v = v1 := congrArg Prod.snd h
      simp [JMap.get, hk, hv]
    · have hk : k ≠ k1 := by
        intro he
        subst he
        exact hnd1.1 (List.mem_map.mpr ⟨(k, v), h, rfl⟩)
      simp [JMap.get, hk, ih h hnd1.2]

/-! ## Characterization of the drops pass -/

/-- The resolved drop list of one NPC, as a function of the item table:
entries whose item id does not resolve are dropped, resolved entries get
the item name baked in. -/
def resolvedDrops (items : JMap Int GameItem) (ds : List ItemDrop) : List ItemDrop :=
  ds.filterMap (fun d => (JMap.get items d.itemId).map (fun it => { d with itemName := it.name }))

/-- The mirrored edges one NPC\'s drop table contributes to the item at key
`k` (provided that item exists). -/
def innerEdgesTo (ds : List ItemDrop) (npcId : Int) (npcName : String) (k : Int) : List NpcDrop :=
  (ds.filter (fun d => decide (d.itemId = k))).map
    (fun d => { npcId := npcId, npcName := npcName, minAmount := d.minAmount,
                maxAmount := d.maxAmount, dropRate := d.dropRate })

/-- The mirrored edges the whole drops pass contributes to the item at key
`k`: tables of non-existing NPCs contribute nothing. -/
def outerEdgesTo (npcs : JMap Int GameNpc) (dl : List (Int × List ItemDrop)) (k : Int) :
    List NpcDrop :=
  dl.flatMap (fun p =>
    match JMap.get npcs p.1 with
    | some npc => innerEdgesTo p.2 p.1 npc.name k
    | none => [])

theorem resolveNpcDrops_items (ds : List ItemDrop) (items : JMap Int GameItem)
    (npcId : Int) (nm : String) (k : Int) :
    JMap.get (resolveNpcDrops items npcId nm ds).1 k =
      (JMap.get items k).map
        (fun it => { it with dropsFrom := it.dropsFrom ++ innerEdgesTo ds npcId nm k }) := by
  induction ds generalizing items with
  | nil =>
    cases h : JMap.get items k <;> simp [resolveNpcDrops, innerEdgesTo, h]
  | cons d rest ih =>
    cases hgd : JMap.get items d.itemId with
    | none =>
      by_cases hk : d.itemId = k
      · subst hk
        simp only [resolveNpcDrops, hgd]
        rw [ih, hgd]
        simp
      · have he : innerEdgesTo (d :: rest) npcId nm k = innerEdgesTo rest npcId nm k := by
          simp [innerEdgesTo, hk]
        simp only [resolveNpcDrops, hgd]
        rw [ih, he]
    | some it =>
      by_cases hk : d.itemId = k
      · subst hk
        have he : innerEdgesTo (d :: rest) npcId nm d.itemId =
            { npcId := npcId, npcName := nm, minAmount := d.minAmount,
              maxAmount := d.maxAmount, dropRate := d.dropRate } ::
            innerEdgesTo rest npcId nm d.itemId := by
          simp [innerEdgesTo]
        simp only [resolveNpcDrops, hgd]
        rw [ih, JMap.get_set_self, he]
        simp
      · have he : innerEdgesTo (d :: rest) npcId nm k = innerEdgesTo rest npcId nm k := by
          simp [innerEdgesTo, hk]
        simp only [resolveNpcDrops, hgd]
        rw [ih, JMap.get_set_ne _ _ _ _ (fun h2 => hk h2.symm), he]

theorem resolveNpcDrops_itemNames (ds : List ItemDrop) (items : JMap Int GameItem)
    (npcId : Int) (nm : String) (k : Int) :
    (JMap.get (resolveNpcDrops items npcId nm ds).1 k).map GameItem.name =
      (JMap.get items k).map GameItem.name := by
  rw [resolveNpcDrops_items]
  cases JMap.get items k <;> simp

theorem resolvedDrops_congr (ds : List ItemDrop) (i1 i2 : JMap Int GameItem)
    (h : ∀ x, (JMap.get i1 x).map GameItem.name = (JMap.get i2 x).map GameItem.name) :
    resolvedDrops i1 ds = resolvedDrops i2 ds := by
  induction ds with
  | nil => rfl
  | cons d rest ih =>
    have hd := h d.itemId
    cases h1 : JMap.get i1 d.itemId with
    | none =>
      cases h2 : JMap.get i2 d.itemId with
      | none => simpa [resolvedDrops, h1, h2] using ih
      | some it2 => rw [h1, h2] at hd; simp at hd
    | some it1 =>
      cases h2 : JMap.get i2 d.itemId with
      | none => rw [h1, h2] at hd; simp at hd
      | some it2 =>
        rw [h1, h2] at hd
        simp at hd
        simpa [resolvedDrops, h1, h2, hd] using ih

theorem resolveNpcDrops_resolved (ds : List ItemDrop) (items : JMap Int GameItem)
    (npcId : Int) (nm : String) :
    (resolveNpcDrops items npcId nm ds).2 = resolvedDrops items ds := by
  induction ds generalizing items with
  | nil => simp [resolveNpcDrops, resolvedDrops]
  | cons d rest ih =>
    cases hgd : JMap.get items d.itemId with
    | none => simp [resolveNpcDrops, hgd, ih, resolvedDrops]
    | some it =>
      simp only [resolveNpcDrops, hgd]
      rw [ih]
      have hnames : ∀ x,
          (JMap.get (JMap.set items d.itemId
            { it with dropsFrom := it.dropsFrom ++
                [{ npcId := npcId, npcName := nm, minAmount := d.minAmount,
                   maxAmount := d.maxAmount, dropRate := d.dropRate }] }) x).map GameItem.name =
          (JMap.get items x).map GameItem.name := by
        intro x
        by_cases hx : x = d.itemId
        · subst hx
          rw [JMap.get_set_self, hgd]
          simp
        · rw [JMap.get_set_ne _ _ _ _ hx]
      rw [resolvedDrops_congr rest _ items hnames]
      simp [resolvedDrops, hgd]

theorem outerEdgesTo_set_ne (rest : List (Int × List ItemDrop)) (npcs : JMap Int GameNpc)
    (nid : Int) (v : GameNpc) (k : Int) (h : nid ∉ rest.map Prod.fst) :
    outerEdgesTo (JMap.set npcs nid v) rest k = outerEdgesTo npcs rest k := by
  induction rest with
  | nil => rfl
  | cons p t ih =>
    rw [List.map_cons, List.mem_cons] at h
    push_neg at h
    have hp : p.1 ≠ nid := fun he => h.1 he.symm
    simp only [outerEdgesTo, List.flatMap_cons] at ih ⊢
    rw [JMap.get_set_ne _ _ _ _ hp, ih h.2]

theorem indexDrops_npcs (dl : List (Int × List ItemDrop)) (items : JMap Int GameItem)
    (npcs : JMap Int GameNpc) (hnd : (dl.map Prod.fst).Nodup) (k : Int) :
    JMap.get (indexDrops items npcs dl).2 k =
      (JMap.get npcs k).map (fun npc =>
        match JMap.get dl k with
        | some ds => { npc with drops := resolvedDrops items ds }
        | none => npc) := by
  induction dl generalizing items npcs with
  | nil =>
    cases h : JMap.get npcs k <;> simp [indexDrops, JMap.get, h]
  | cons p rest ih =>
    rcases p with ⟨nid, ds⟩
    rw [List.map_cons] at hnd
    have hnd1 := List.nodup_cons.mp hnd
    cases hn : JMap.get npcs nid with
    | none =>
      simp only [indexDrops, hn]
      rw [ih items npcs hnd1.2]
      by_cases hk : k = nid
      · subst hk
        simp [hn]
      · have hr : JMap.get ((nid, ds) :: rest) k = JMap.get rest k := by
          simp [JMap.get, hk]
        rw [hr]
    | some npc =>
      simp only [indexDrops, hn]
      rw [ih _ _ hnd1.2]
      by_cases hk : k = nid
      · subst hk
        rw [JMap.get_set_self]
        have hrest : JMap.get rest k = none := JMap.get_eq_none_of_not_mem rest k hnd1.1
        have hcons : JMap.get ((k, ds) :: rest) k = some ds := by simp [JMap.get]
        rw [hrest, hcons, hn, resolveNpcDrops_resolved]
        simp
      · rw [JMap.get_set_ne _ _ _ _ hk]
        have hr : JMap.get ((nid, ds) :: rest) k = JMap.get rest k := by
          simp [JMap.get, hk]
        rw [hr]
        cases hdsk : JMap.get rest k with
        | none => simp
        | some dsr =>
          have hres : resolvedDrops (resolveNpcDrops items nid npc.name ds).1 dsr =
              resolvedDrops items dsr :=
            resolvedDrops_congr dsr _ items
              (fun x => resolveNpcDrops_itemNames ds items nid npc.name x)
          cases JMap.get npcs k with
          | none => simp
          | some npc2 => simp [hres]

theorem indexDrops_items (dl : List (Int × List ItemDrop)) (items : JMap Int GameItem)
    (npcs : JMap Int GameNpc) (hnd : (dl.map Prod.fst).Nodup) (k : Int) :
    JMap.get (indexDrops items npcs dl).1 k =
      (JMap.get items k).map
        (fun it => { it with dropsFrom := it.dropsFrom ++ outerEdgesTo npcs dl k }) := by
  induction dl generalizing items npcs with
  | nil =>
    cases h : JMap.get items k <;> simp [indexDrops, outerEdgesTo, h]
  | cons p rest ih =>
    rcases p with ⟨nid, ds⟩
    rw [List.map_cons] at hnd
    have hnd1 := List.nodup_cons.mp hnd
    cases hn : JMap.get npcs nid with
    | none =>
      simp only [indexDrops, hn]
      rw [ih items npcs hnd1.2]
      have ho : outerEdgesTo npcs ((nid, ds) :: rest) k = outerEdgesTo npcs rest k := by
        simp [outerEdgesTo, hn]
      rw [ho]
    | some npc =>
      simp only [indexDrops, hn]
      rw [ih _ _ hnd1.2]
      rw [outerEdgesTo_set_ne rest npcs nid _ k hnd1.1]
      rw [resolveNpcDrops_items ds items nid npc.name k]
      have ho : outerEdgesTo npcs ((nid, ds) :: rest) k =
          innerEdgesTo ds nid npc.name k ++ outerEdgesTo npcs rest k := by
        simp [outerEdgesTo, hn]
      rw [ho]
      cases hgi : JMap.get items k <;> simp

/-! ## Claim C4 -/

/-- Claim C4: after the drops pass on freshly loaded tables, every drop
entry on an NPC's side has a mirrored `dropsFrom` entry on that item's
side with identical min/max/rate and both counterpart names copied in, and
conversely every `dropsFrom` entry on an item has a matching entry on the
NPC's side. -/
theorem drops_edges_bidirectional
    (items : JMap Int GameItem) (npcs : JMap Int GameNpc) (dl : JMap Int (List ItemDrop))
    (items' : JMap Int GameItem) (npcs' : JMap Int GameNpc)
    (hnd : (dl.map Prod.fst).Nodup)
    (hfreshI : ∀ k it, JMap.get items k = some it → it.dropsFrom = [])
    (hfreshN : ∀ k npc, JMap.get npcs k = some npc → npc.drops = [])
    (hrun : indexDrops items npcs dl = (items', npcs')) :
    (∀ npcId npc, JMap.get npcs' npcId = some npc →
      ∀ d ∈ npc.drops, ∃ item, JMap.get items' d.itemId = some item ∧
        d.itemName = item.name ∧
        ({ npcId := npcId, npcName := npc.name, minAmount := d.minAmount,
           maxAmount := d.maxAmount, dropRate := d.dropRate } : NpcDrop) ∈ item.dropsFrom) ∧
    (∀ itemId item, JMap.get items' itemId = some item →
      ∀ nd ∈ item.dropsFrom, ∃ npc, JMap.get npcs' nd.npcId = some npc ∧
        nd.npcName = npc.name ∧
        ∃ d, d ∈ npc.drops ∧ d.itemId = itemId ∧ d.itemName = item.name ∧
          d.minAmount = nd.minAmount ∧ d.maxAmount = nd.maxAmount ∧
          d.dropRate = nd.dropRate) := by
  have hI : items' = (indexDrops items npcs dl).1 := by rw [hrun]
  have hN : npcs' = (indexDrops items npcs dl).2 := by rw [hrun]
  subst hI
  subst hN
  constructor
  · intro npcId npc hget d hd
    rw [indexDrops_npcs dl items npcs hnd npcId] at hget
    obtain ⟨npc0, hn0, hF⟩ := Option.map_eq_some'.mp hget
    cases hdl : JMap.get dl npcId with
    | none =>
      rw [hdl] at hF
      have hdr : npc.drops = [] := by
        rw [← hF]
        exact hfreshN npcId npc0 hn0
      rw [hdr] at hd
      cases hd
    | some ds =>
      rw [hdl] at hF
      have hdrops : npc.drops = resolvedDrops items ds := by rw [← hF]
      have hname : npc.name = npc0.name := by rw [← hF]
      rw [hdrops] at hd
      obtain ⟨d0, hd0mem, hd0res⟩ := List.mem_filterMap.mp hd
      obtain ⟨it0, hit0, hd0e⟩ := Option.map_eq_some'.mp hd0res
      have hdid : d.itemId = d0.itemId := by rw [← hd0e]
      have hdnm : d.itemName = it0.name := by rw [← hd0e]
      have hdmin : d.minAmount = d0.minAmount := by rw [← hd0e]
      have hdmax : d.maxAmount = d0.maxAmount := by rw [← hd0e]
      have hdrate : d.dropRate = d0.dropRate := by rw [← hd0e]
      refine ⟨{ it0 with dropsFrom := it0.dropsFrom ++ outerEdgesTo npcs dl d.itemId }, ?_, ?_, ?_⟩
      · rw [indexDrops_items dl items npcs hnd d.itemId, hdid, hit0]
        rw [← hdid]
        rfl
      · exact hdnm
      · have hfre : it0.dropsFrom = [] := hfreshI d0.itemId it0 hit0
        simp only [hfre, List.nil_append]
        apply List.mem_flatMap.mpr
        refine ⟨(npcId, ds), JMap.mem_of_get_eq_some dl npcId ds hdl, ?_⟩
        simp only [hn0]
        apply List.mem_map.mpr
        refine ⟨d0, List.mem_filter.mpr ⟨hd0mem, by simp [hdid]⟩, ?_⟩
        rw [hname, hdmin, hdmax, hdrate]
  · intro itemId item hget nd hndm
    rw [indexDrops_items dl items npcs hnd itemId] at hget
    obtain ⟨it0, hit0, hF⟩ := Option.map_eq_some'.mp hget
    have hfre : it0.dropsFrom = [] := hfreshI itemId it0 hit0
    have hdfrom : item.dropsFrom = outerEdgesTo npcs dl itemId := by
      rw [← hF, hfre]
      simp
    have hinm : item.name = it0.name := by rw [← hF]
    rw [hdfrom] at hndm
    obtain ⟨p, hpmem, hpin⟩ := List.mem_flatMap.mp hndm
    cases hnp : JMap.get npcs p.1 with
    | none => rw [hnp] at hpin; cases hpin
    | some npc0 =>
      rw [hnp] at hpin
      obtain ⟨d0, hd0f, hd0e⟩ := List.mem_map.mp hpin
      obtain ⟨hd0mem, hd0id⟩ := List.mem_filter.mp hd0f
      have hd0id' : d0.itemId = itemId := by
        simpa using hd0id
      have hndid : nd.npcId = p.1 := by rw [← hd0e]
      have hndnm : nd.npcName = npc0.name := by rw [← hd0e]
      have hndmin : nd.minAmount = d0.minAmount := by rw [← hd0e]
      have hndmax : nd.maxAmount = d0.maxAmount := by rw [← hd0e]
      have hndrate : nd.dropRate = d0.dropRate := by rw [← hd0e]
      have hdl : JMap.get dl p.1 = some p.2 :=
        JMap.get_of_mem_nodup dl p.1 p.2 (by simpa using hpmem) hnd
      refine ⟨{ npc0 with drops := resolvedDrops items p.2 }, ?_, ?_, ?_⟩
      · rw [indexDrops_npcs dl items npcs hnd nd.npcId, hndid, hnp, hdl]
        rfl
      · exact hndnm
      · refine ⟨{ d0 with itemName := it0.name }, ?_, ?_, ?_, ?_, ?_, ?_⟩
        · show _ ∈ resolvedDrops items p.2
          apply List.mem_filterMap.mpr
          refine ⟨d0, hd0mem, ?_⟩
          rw [hd0id', hit0]
          rfl
        · exact hd0id'
        · exact hinm.symm
        · exact hndmin.symm
        · exact hndmax.symm
        · exact hndrate.symm

/-- Concrete item table for the C4 witness. -/
def wItems4 : JMap Int GameItem := [(5, { id := 5, name := "Gem", graphicId := 1 })]

/-- Concrete NPC table for the C4 witness. -/
def wNpcs4 : JMap Int GameNpc :=
  [(3, { id := 3, name := "Bat", graphicId := 2, behaviorId := 0, boss := false,
         child := false, npcType := 0 })]

/-- Concrete drop tables for the C4 witness. -/
def wDrops4 : JMap Int (List ItemDrop) :=
  [(3, [{ itemId := 5, itemName := "", minAmount := 1, maxAmount := 2, dropRate := 1 }])]

theorem drops_edges_bidirectional_witness :
    (∀ npcId npc, JMap.get (indexDrops wItems4 wNpcs4 wDrops4).2 npcId = some npc →
      ∀ d ∈ npc.drops, ∃ item,
        JMap.get (indexDrops wItems4 wNpcs4 wDrops4).1 d.itemId = some item ∧
        d.itemName = item.name ∧
        ({ npcId := npcId, npcName := npc.name, minAmount := d.minAmount,
           maxAmount := d.maxAmount, dropRate := d.dropRate } : NpcDrop) ∈ item.dropsFrom) ∧
    (∀ itemId item, JMap.get (indexDrops wItems4 wNpcs4 wDrops4).1 itemId = some item →
      ∀ nd ∈ item.dropsFrom, ∃ npc,
        JMap.get (indexDrops wItems4 wNpcs4 wDrops4).2 nd.npcId = some npc ∧
        nd.npcName = npc.name ∧
        ∃ d, d ∈ npc.drops ∧ d.itemId = itemId ∧ d.itemName = item.name ∧
          d.minAmount = nd.minAmount ∧ d.maxAmount = nd.maxAmount ∧
          d.dropRate = nd.dropRate) := by
  refine drops_edges_bidirectional wItems4 wNpcs4 wDrops4 _ _ (by decide) ?_ ?_ rfl
  · intro k it h
    by_cases hk : k = (5 : Int)
    · subst hk
      rw [show JMap.get wItems4 5 = some { id := 5, name := "Gem", graphicId := 1 } from rfl]
        at h
      cases h
      rfl
    · rw [JMap.get_eq_none_of_not_mem wItems4 k (by simp [wItems4, hk])] at h
      cases h
  · intro k npc h
    by_cases hk : k = (3 : Int)
    · subst hk
      rw [show JMap.get wNpcs4 3 =
          some { id := 3, name := "Bat", graphicId := 2, behaviorId := 0, boss := false,
                 child := false, npcType := 0 } from rfl] at h
      cases h
      rfl
    · rw [JMap.get_eq_none_of_not_mem wNpcs4 k (by simp [wNpcs4, hk])] at h
      cases h

/-! ## Characterization of the quest pass -/

/-- The resolution-relevant fields of an NPC: name, primary id, graphic.
All quest-pass appends leave them unchanged. -/
def npcKey (n : GameNpc) : String × Int × Int := (n.name, n.id, n.graphicId)

/-- The resolved form of one dialogue NPC reference. -/
def resolveQuestRef (npcs : JMap Int GameNpc) (vidx : JMap Int Int) (e : QuestNpcRef) :
    QuestNpcRef :=
  match (JMap.get vidx e.npcId).bind (fun k => (JMap.get npcs k).map (fun n => (k, n))) with
  | some kn => { e with npcName := kn.2.name, enfId := some kn.2.id,
                        graphicId := some kn.2.graphicId }
  | none => e

/-- The resolved form of one item reward entry. -/
def resolveQuestReward (items : JMap Int GameItem) (r : QuestRewardItem) : QuestRewardItem :=
  match JMap.get items r.itemId with
  | some it => { r with itemName := it.name }
  | none => r

/-- The resolved form of one kill requirement entry. -/
def resolveQuestKill (npcs : JMap Int GameNpc) (kr : QuestKillReq) : QuestKillReq :=
  match JMap.get npcs kr.npcId with
  | some npc => { kr with npcName := npc.name, enfId := some npc.id,
                          graphicId := some npc.graphicId }
  | none => kr

/-- The resolved form of one item requirement entry. -/
def resolveQuestItemReq (items : JMap Int GameItem) (req : QuestItemReq) : QuestItemReq :=
  match JMap.get items req.itemId with
  | some it => { req with itemName := it.name }
  | none => req

/-- Dialogue involvement edges a reference list contributes to the NPC at
key `x` (given that NPC exists). -/
def dialogEdgesTo (vidx : JMap Int Int) (qid : Int) (qn : String) (es : List QuestNpcRef)
    (x : Int) : List QuestInvolvement :=
  (es.filter (fun e => decide (JMap.get vidx e.npcId = some x))).map
    (fun _ => { questId := qid, questName := qn, role := QuestRole.dialogue })

/-- Kill involvement edges a kill-requirement list contributes to the NPC
at key `x`. -/
def killEdgesTo (qid : Int) (qn : String) (krs : List QuestKillReq) (x : Int) :
    List QuestInvolvement :=
  (krs.filter (fun kr => decide (kr.npcId = x))).map
    (fun _ => { questId := qid, questName := qn, role := QuestRole.kill })

/-- Reward edges a reward list contributes to the item at key `x`. -/
def rewardEdgesTo (qid : Int) (qn : String) (rs : List QuestRewardItem) (x : Int) :
    List QuestReward :=
  (rs.filter (fun r => decide (r.itemId = x))).map
    (fun r => { questId := qid, questName := qn, amount := r.amount })

/-- Requirement edges an item-requirement list contributes to the item at
key `x`. -/
def reqEdgesTo (qid : Int) (qn : String) (rs : List QuestItemReq) (x : Int) :
    List QuestRequirement :=
  (rs.filter (fun r => decide (r.itemId = x))).map
    (fun r => { questId := qid, questName := qn, count := r.count })

theorem indexQuestNpcRefs_npcs (es : List QuestNpcRef) (npcs : JMap Int GameNpc)
    (vidx : JMap Int Int) (qid : Int) (qn : String) (x : Int) :
    JMap.get (indexQuestNpcRefs npcs vidx qid qn es).1 x =
      (JMap.get npcs x).map
        (fun npc => { npc with questInvolvement :=
          npc.questInvolvement ++ dialogEdgesTo vidx qid qn es x }) := by
  induction es generalizing npcs with
  | nil =>
    cases h : JMap.get npcs x <;> simp [indexQuestNpcRefs, dialogEdgesTo, h]
  | cons e rest ih =>
    cases hv : JMap.get vidx e.npcId with
    | none =>
      have hcond : (decide (JMap.get vidx e.npcId = some x)) = false := by
        rw [hv]
        simp
      have hde : dialogEdgesTo vidx qid qn (e :: rest) x = dialogEdgesTo vidx qid qn rest x := by
        simp [dialogEdgesTo, List.filter_cons, hcond]
      simp only [indexQuestNpcRefs, hv, Option.none_bind]
      rw [ih, hde]
    | some k =>
      cases hn : JMap.get npcs k with
      | none =>
        simp only [indexQuestNpcRefs, hv, Option.some_bind, hn, Option.map_none']
        rw [ih]
        by_cases hx : x = k
        · subst hx
          rw [hn]
          simp
        · have hcond : (decide (JMap.get vidx e.npcId = some x)) = false := by
            rw [hv]
            simp
            exact fun h => hx h.symm
          have hde : dialogEdgesTo vidx qid qn (e :: rest) x =
              dialogEdgesTo vidx qid qn rest x := by
            simp [dialogEdgesTo, List.filter_cons, hcond]
          rw [hde]
      | some npc =>
        simp only [indexQuestNpcRefs, hv, Option.some_bind, hn, Option.map_some']
        rw [ih]
        by_cases hx : x = k
        · subst hx
          have hcond : (decide (JMap.get vidx e.npcId = some x)) = true := by
            rw [hv]
            simp
          have hde : dialogEdgesTo vidx qid qn (e :: rest) x =
              ({ questId := qid, questName := qn, role := QuestRole.dialogue } :
                QuestInvolvement) :: dialogEdgesTo vidx qid qn rest x := by
            simp [dialogEdgesTo, List.filter_cons, hcond]
          rw [JMap.get_set_self, hn, hde]
          simp
        · have hcond : (decide (JMap.get vidx e.npcId = some x)) = false := by
            rw [hv]
            simp
            exact fun h => hx h.symm
          have hde : dialogEdgesTo vidx qid qn (e :: rest) x =
              dialogEdgesTo vidx qid qn rest x := by
            simp [dialogEdgesTo, List.filter_cons, hcond]
          rw [JMap.get_set_ne _ _ _ _ hx, hde]

theorem indexQuestNpcRefs_npcKey (es : List QuestNpcRef) (npcs : JMap Int GameNpc)
    (vidx : JMap Int Int) (qid : Int) (qn : String) (x : Int) :
    (JMap.get (indexQuestNpcRefs npcs vidx qid qn es).1 x).map npcKey =
      (JMap.get npcs x).map npcKey := by
  rw [indexQuestNpcRefs_npcs]
  cases JMap.get npcs x <;> simp [npcKey]

theorem resolveQuestRef_congr (n1 n2 : JMap Int GameNpc) (vidx : JMap Int Int)
    (e : QuestNpcRef)
    (h : ∀ y, (JMap.get n1 y).map npcKey = (JMap.get n2 y).map npcKey) :
    resolveQuestRef n1 vidx e = resolveQuestRef n2 vidx e := by
  unfold resolveQuestRef
  cases hv : JMap.get vidx e.npcId with
  | none => rfl
  | some k =>
    have hk := h k
    cases h1 : JMap.get n1 k with
    | none =>
      cases h2 : JMap.get n2 k with
      | none => simp [h1, h2]
      | some b => rw [h1, h2] at hk; simp [npcKey] at hk
    | some a =>
      cases h2 : JMap.get n2 k with
      | none => rw [h1, h2] at hk; simp [npcKey] at hk
      | some b =>
        rw [h1, h2] at hk
        simp [npcKey] at hk
        simp [h1, h2, hk.1, hk.2.1, hk.2.2]

theorem indexQuestNpcRefs_entries (es : List QuestNpcRef) (npcs : JMap Int GameNpc)
    (vidx : JMap Int Int) (qid : Int) (qn : String) :
    (indexQuestNpcRefs npcs vidx qid qn es).2 = es.map (resolveQuestRef npcs vidx) := by
  induction es generalizing npcs with
  | nil => rfl
  | cons e rest ih =>
    cases hv : JMap.get vidx e.npcId with
    | none =>
      simp only [indexQuestNpcRefs, hv, Option.none_bind]
      rw [ih]
      simp [resolveQuestRef, hv]
    | some k =>
      cases hn : JMap.get npcs k with
      | none =>
        simp only [indexQuestNpcRefs, hv, Option.some_bind, hn, Option.map_none']
        rw [ih]
        simp [resolveQuestRef, hv, hn]
      | some npc =>
        simp only [indexQuestNpcRefs, hv, Option.some_bind, hn, Option.map_some']
        rw [ih]
        have hst : ∀ y,
            (JMap.get (JMap.set npcs k
              { npc with questInvolvement := npc.questInvolvement ++
                [{ questId := qid, questName := qn, role := QuestRole.dialogue }] }) y).map npcKey =
            (JMap.get npcs y).map npcKey := by
          intro y
          by_cases hy : y = k
          · subst hy
            rw [JMap.get_set_self, hn]
            simp [npcKey]
          · rw [JMap.get_set_ne _ _ _ _ hy]
        rw [List.map_congr_left (fun e2 _ => resolveQuestRef_congr _ npcs vidx e2 hst)]
        simp [resolveQuestRef, hv, hn]

theorem indexQuestRewards_items (rs : List QuestRewardItem) (items : JMap Int GameItem)
    (qid : Int) (qn : String) (x : Int) :
    JMap.get (indexQuestRewards items qid qn rs).1 x =
      (JMap.get items x).map
        (fun it => { it with questRewards := it.questRewards ++ rewardEdgesTo qid qn rs x }) := by
  induction rs generalizing items with
  | nil =>
    cases h : JMap.get items x <;> simp [indexQuestRewards, rewardEdgesTo, h]
  | cons r rest ih =>
    cases hg : JMap.get items r.itemId with
    | none =>
      simp only [indexQuestRewards, hg]
      rw [ih]
      by_cases hx : r.itemId = x
      · subst hx
        rw [hg]
        simp
      · have hcond : (decide (r.itemId = x)) = false := by simp [hx]
        have hde : rewardEdgesTo qid qn (r :: rest) x = rewardEdgesTo qid qn rest x := by
          simp [rewardEdgesTo, List.filter_cons, hcond]
        rw [hde]
    | some it =>
      simp only [indexQuestRewards, hg]
      rw [ih]
      by_cases hx : r.itemId = x
      · subst hx
        have hcond : (decide (r.itemId = r.itemId)) = true := by simp
        have hde : rewardEdgesTo qid qn (r :: rest) r.itemId =
            ({ questId := qid, questName := qn, amount := r.amount } : QuestReward) ::
              rewardEdgesTo qid qn rest r.itemId := by
          simp [rewardEdgesTo, List.filter_cons, hcond]
        rw [JMap.get_set_self, hg, hde]
        simp
      · have hcond : (decide (r.itemId = x)) = false := by simp [hx]
        have hde : rewardEdgesTo qid qn (r :: rest) x = rewardEdgesTo qid qn rest x := by
          simp [rewardEdgesTo, List.filter_cons, hcond]
        rw [JMap.get_set_ne _ _ _ _ (fun h => hx h.symm), hde]

theorem indexQuestRewards_name (rs : List QuestRewardItem) (items : JMap Int GameItem)
    (qid : Int) (qn : String) (x : Int) :
    (JMap.get (indexQuestRewards items qid qn rs).1 x).map GameItem.name =
      (JMap.get items x).map GameItem.name := by
  rw [indexQuestRewards_items]
  cases JMap.get items x <;> simp

theorem resolveQuestReward_congr (i1 i2 : JMap Int GameItem) (r : QuestRewardItem)
    (h : ∀ y, (JMap.get i1 y).map GameItem.name = (JMap.get i2 y).map GameItem.name) :
    resolveQuestReward i1 r = resolveQuestReward i2 r := by
  unfold resolveQuestReward
  have hk := h r.itemId
  cases h1 : JMap.get i1 r.itemId with
  | none =>
    cases h2 : JMap.get i2 r.itemId with
    | none => rfl
    | some b => rw [h1, h2] at hk; simp at hk
  | some a =>
    cases h2 : JMap.get i2 r.itemId with
    | none => rw [h1, h2] at hk; simp at hk
    | some b =>
      rw [h1, h2] at hk
      simp at hk
      simp [hk]

theorem indexQuestRewards_entries (rs : List QuestRewardItem) (items : JMap Int GameItem)
    (qid : Int) (qn : String) :
    (indexQuestRewards items qid qn rs).2 = rs.map (resolveQuestReward items) := by
  induction rs generalizing items with
  | nil => rfl
  | cons r rest ih =>
    cases hg : JMap.get items r.itemId with
    | none =>
      simp only [indexQuestRewards, hg]
      rw [ih]
      simp [resolveQuestReward, hg]
    | some it =>
      simp only [indexQuestRewards, hg]
      rw [ih]
      have hst : ∀ y,
          (JMap.get (JMap.set items r.itemId
            { it with questRewards := it.questRewards ++
              [{ questId := qid, questName := qn, amount := r.amount }] }) y).map GameItem.name =
          (JMap.get items y).map GameItem.name := by
        intro y
        by_cases hy : y = r.itemId
        · subst hy
          rw [JMap.get_set_self, hg]
          simp
        · rw [JMap.get_set_ne _ _ _ _ hy]
      rw [List.map_congr_left (fun r2 _ => resolveQuestReward_congr _ items r2 hst)]
      simp [resolveQuestReward, hg]

theorem indexQuestKills_npcs (krs : List QuestKillReq) (npcs : JMap Int GameNpc)
    (qid : Int) (qn : String) (x : Int) :
    JMap.get (indexQuestKills npcs qid qn krs).1 x =
      (JMap.get npcs x).map
        (fun npc => { npc with questInvolvement :=
          npc.questInvolvement ++ killEdgesTo qid qn krs x }) := by
  induction krs generalizing npcs with
  | nil =>
    cases h : JMap.get npcs x <;> simp [indexQuestKills, killEdgesTo, h]
  | cons kr rest ih =>
    cases hg : JMap.get npcs kr.npcId with
    | none =>
      simp only [indexQuestKills, hg]
      rw [ih]
      by_cases hx : kr.npcId = x
      · subst hx
        rw [hg]
        simp
      · have hcond : (decide (kr.npcId = x)) = false := by simp [hx]
        have hde : killEdgesTo qid qn (kr :: rest) x = killEdgesTo qid qn rest x := by
          simp [killEdgesTo, List.filter_cons, hcond]
        rw [hde]
    | some npc =>
      simp only [indexQuestKills, hg]
      rw [ih]
      by_cases hx : kr.npcId = x
      · subst hx
        have hcond : (decide (kr.npcId = kr.npcId)) = true := by simp
        have hde : killEdgesTo qid qn (kr :: rest) kr.npcId =
            ({ questId := qid, questName := qn, role := QuestRole.kill } : QuestInvolvement) ::
              killEdgesTo qid qn rest kr.npcId := by
          simp [killEdgesTo, List.filter_cons, hcond]
        rw [JMap.get_set_self, hg, hde]
        simp
      · have hcond : (decide (kr.npcId = x)) = false := by simp [hx]
        have hde : killEdgesTo qid qn (kr :: rest) x = killEdgesTo qid qn rest x := by
          simp [killEdgesTo, List.filter_cons, hcond]
        rw [JMap.get_set_ne _ _ _ _ (fun h => hx h.symm), hde]

theorem indexQuestKills_npcKey (krs : List QuestKillReq) (npcs : JMap Int GameNpc)
    (qid : Int) (qn : String) (x : Int) :
    (JMap.get (indexQuestKills npcs qid qn krs).1 x).map npcKey =
      (JMap.get npcs x).map npcKey := by
  rw [indexQuestKills_npcs]
  cases JMap.get npcs x <;> simp [npcKey]

theorem resolveQuestKill_congr (n1 n2 : JMap Int GameNpc) (kr : QuestKillReq)
    (h : ∀ y, (JMap.get n1 y).map npcKey = (JMap.get n2 y).map npcKey) :
    resolveQuestKill n1 kr = resolveQuestKill n2 kr := by
  unfold resolveQuestKill
  have hk := h kr.npcId
  cases h1 : JMap.get n1 kr.npcId with
  | none =>
    cases h2 : JMap.get n2 kr.npcId with
    | none => rfl
    | some b => rw [h1, h2] at hk; simp [npcKey] at hk
  | some a =>
    cases h2 : JMap.get n2 kr.npcId with
    | none => rw [h1, h2] at hk; simp [npcKey] at hk
    | some b =>
      rw [h1, h2] at hk
      simp [npcKey] at hk
      simp [hk.1, hk.2.1, hk.2.2]

theorem indexQuestKills_entries (krs : List QuestKillReq) (npcs : JMap Int GameNpc)
    (qid : Int) (qn : String) :
    (indexQuestKills npcs qid qn krs).2 = krs.map (resolveQuestKill npcs) := by
  induction krs generalizing npcs with
  | nil => rfl
  | cons kr rest ih =>
    cases hg : JMap.get npcs kr.npcId with
    | none =>
      simp only [indexQuestKills, hg]
      rw [ih]
      simp [resolveQuestKill, hg]
    | some npc =>
      simp only [indexQuestKills, hg]
      rw [ih]
      have hst : ∀ y,
          (JMap.get (JMap.set npcs kr.npcId
            { npc with questInvolvement := npc.questInvolvement ++
              [{ questId := qid, questName := qn, role := QuestRole.kill }] }) y).map npcKey =
          (JMap.get npcs y).map npcKey := by
        intro y
        by_cases hy : y = kr.npcId
        · subst hy
          rw [JMap.get_set_self, hg]
          simp [npcKey]
        · rw [JMap.get_set_ne _ _ _ _ hy]
      rw [List.map_congr_left (fun kr2 _ => resolveQuestKill_congr _ npcs kr2 hst)]
      simp [resolveQuestKill, hg]

theorem indexQuestItemReqs_items (rs : List QuestItemReq) (items : JMap Int GameItem)
    (qid : Int) (qn : String) (x : Int) :
    JMap.get (indexQuestItemReqs items qid qn rs).1 x =
      (JMap.get items x).map
        (fun it => { it with questRequirements :=
          it.questRequirements ++ reqEdgesTo qid qn rs x }) := by
  induction rs generalizing items with
  | nil =>
    cases h : JMap.get items x <;> simp [indexQuestItemReqs, reqEdgesTo, h]
  | cons r rest ih =>
    cases hg : JMap.get items r.itemId with
    | none =>
      simp only [indexQuestItemReqs, hg]
      rw [ih]
      by_cases hx : r.itemId = x
      · subst hx
        rw [hg]
        simp
      · have hcond : (decide (r.itemId = x)) = false := by simp [hx]
        have hde : reqEdgesTo qid qn (r :: rest) x = reqEdgesTo qid qn rest x := by
          simp [reqEdgesTo, List.filter_cons, hcond]
        rw [hde]
    | some it =>
      simp only [indexQuestItemReqs, hg]
      rw [ih]
      by_cases hx : r.itemId = x
      · subst hx
        have hcond : (decide (r.itemId = r.itemId)) = true := by simp
        have hde : reqEdgesTo qid qn (r :: rest) r.itemId =
            ({ questId := qid, questName := qn, count := r.count } : QuestRequirement) ::
              reqEdgesTo qid qn rest r.itemId := by
          simp [reqEdgesTo, List.filter_cons, hcond]
        rw [JMap.get_set_self, hg, hde]
        simp
      · have hcond : (decide (r.itemId = x)) = false := by simp [hx]
        have hde : reqEdgesTo qid qn (r :: rest) x = reqEdgesTo qid qn rest x := by
          simp [reqEdgesTo, List.filter_cons, hcond]
        rw [JMap.get_set_ne _ _ _ _ (fun h => hx h.symm), hde]

theorem indexQuestItemReqs_name (rs : List QuestItemReq) (items : JMap Int GameItem)
    (qid : Int) (qn : String) (x : Int) :
    (JMap.get (indexQuestItemReqs items qid qn rs).1 x).map GameItem.name =
      (JMap.get items x).map GameItem.name := by
  rw [indexQuestItemReqs_items]
  cases JMap.get items x <;> simp

theorem resolveQuestItemReq_congr (i1 i2 : JMap Int GameItem) (r : QuestItemReq)
    (h : ∀ y, (JMap.get i1 y).map GameItem.name = (JMap.get i2 y).map GameItem.name) :
    resolveQuestItemReq i1 r = resolveQuestItemReq i2 r := by
  unfold resolveQuestItemReq
  have hk := h r.itemId
  cases h1 : JMap.get i1 r.itemId with
  | none =>
    cases h2 : JMap.get i2 r.itemId with
    | none => rfl
    | some b => rw [h1, h2] at hk; simp at hk
  | some a =>
    cases h2 : JMap.get i2 r.itemId with
    | none => rw [h1, h2] at hk; simp at hk
    | some b =>
      rw [h1, h2] at hk
      simp at hk
      simp [hk]

theorem indexQuestItemReqs_entries (rs : List QuestItemReq) (items : JMap Int GameItem)
    (qid : Int) (qn : String) :
    (indexQuestItemReqs items qid qn rs).2 = rs.map (resolveQuestItemReq items) := by
  induction rs generalizing items with
  | nil => rfl
  | cons r rest ih =>
    cases hg : JMap.get items r.itemId with
    | none =>
      simp only [indexQuestItemReqs, hg]
      rw [ih]
      simp [resolveQuestItemReq, hg]
    | some it =>
      simp only [indexQuestItemReqs, hg]
      rw [ih]
      have hst : ∀ y,
          (JMap.get (JMap.set items r.itemId
            { it with questRequirements := it.questRequirements ++
              [{ questId := qid, questName := qn, count := r.count }] }) y).map GameItem.name =
          (JMap.get items y).map GameItem.name := by
        intro y
        by_cases hy : y = r.itemId
        · subst hy
          rw [JMap.get_set_self, hg]
          simp
        · rw [JMap.get_set_ne _ _ _ _ hy]
      rw [List.map_congr_left (fun r2 _ => resolveQuestItemReq_congr _ items r2 hst)]
      simp [resolveQuestItemReq, hg]

/-- The fully resolved form of one quest after the quest pass. -/
def transformQuest (npcs : JMap Int GameNpc) (items : JMap Int GameItem)
    (vidx : JMap Int Int) (q : GameQuest) : GameQuest :=
  { q with involvedNpcs := q.involvedNpcs.map (resolveQuestRef npcs vidx),
           rewardItems := q.rewardItems.map (resolveQuestReward items),
           killRequirements := q.killRequirements.map (resolveQuestKill npcs),
           itemRequirements := q.itemRequirements.map (resolveQuestItemReq items) }

/-- All involvement edges one quest contributes to the NPC at key `x`:
dialogue edges first, then kill edges (the order of the inner loops). -/
def questNpcEdgesTo (vidx : JMap Int Int) (q : GameQuest) (x : Int) : List QuestInvolvement :=
  dialogEdgesTo vidx q.id q.name q.involvedNpcs x ++
    killEdgesTo q.id q.name q.killRequirements x

/-- All involvement edges the whole quest pass contributes to the NPC at
key `x`. -/
def allQuestNpcEdgesTo (vidx : JMap Int Int) (ql : List (Int × GameQuest)) (x : Int) :
    List QuestInvolvement :=
  ql.flatMap (fun p => questNpcEdgesTo vidx p.2 x)

/-- All reward edges the quest pass contributes to the item at key `x`. -/
def allQuestRewardEdgesTo (ql : List (Int × GameQuest)) (x : Int) : List QuestReward :=
  ql.flatMap (fun p => rewardEdgesTo p.2.id p.2.name p.2.rewardItems x)

/-- All requirement edges the quest pass contributes to the item at key `x`. -/
def allQuestReqEdgesTo (ql : List (Int × GameQuest)) (x : Int) : List QuestRequirement :=
  ql.flatMap (fun p => reqEdgesTo p.2.id p.2.name p.2.itemRequirements x)

theorem transformQuest_congr (n1 n2 : JMap Int GameNpc) (i1 i2 : JMap Int GameItem)
    (vidx : JMap Int Int) (q : GameQuest)
    (hn : ∀ y, (JMap.get n1 y).map npcKey = (JMap.get n2 y).map npcKey)
    (hi : ∀ y, (JMap.get i1 y).map GameItem.name = (JMap.get i2 y).map GameItem.name) :
    transformQuest n1 i1 vidx q = transformQuest n2 i2 vidx q := by
  unfold transformQuest
  rw [List.map_congr_left (fun e _ => resolveQuestRef_congr n1 n2 vidx e hn),
      List.map_congr_left (fun r _ => resolveQuestReward_congr i1 i2 r hi),
      List.map_congr_left (fun kr _ => resolveQuestKill_congr n1 n2 kr hn),
      List.map_congr_left (fun r _ => resolveQuestItemReq_congr i1 i2 r hi)]

theorem indexQuests_npcs (ql : List (Int × GameQuest)) (npcs : JMap Int GameNpc)
    (items : JMap Int GameItem) (quests : JMap Int GameQuest) (vidx : JMap Int Int) (x : Int) :
    JMap.get (indexQuests npcs items quests vidx ql).1 x =
      (JMap.get npcs x).map
        (fun npc => { npc with questInvolvement :=
          npc.questInvolvement ++ allQuestNpcEdgesTo vidx ql x }) := by
  induction ql generalizing npcs items quests with
  | nil =>
    cases h : JMap.get npcs x <;> simp [indexQuests, allQuestNpcEdgesTo, h]
  | cons p rest ih =>
    rcases p with ⟨qkey, q⟩
    simp only [indexQuests]
    rw [ih]
    rw [indexQuestKills_npcs, indexQuestNpcRefs_npcs]
    have hedges : allQuestNpcEdgesTo vidx ((qkey, q) :: rest) x =
        (dialogEdgesTo vidx q.id q.name q.involvedNpcs x ++
          killEdgesTo q.id q.name q.killRequirements x) ++ allQuestNpcEdgesTo vidx rest x := by
      simp [allQuestNpcEdgesTo, questNpcEdgesTo, List.flatMap_cons]
    rw [hedges]
    cases JMap.get npcs x <;> simp [List.append_assoc]

theorem indexQuests_items (ql : List (Int × GameQuest)) (npcs : JMap Int GameNpc)
    (items : JMap Int GameItem) (quests : JMap Int GameQuest) (vidx : JMap Int Int) (x : Int) :
    JMap.get (indexQuests npcs items quests vidx ql).2.1 x =
      (JMap.get items x).map
        (fun it => { it with
          questRewards := it.questRewards ++ allQuestRewardEdgesTo ql x,
          questRequirements := it.questRequirements ++ allQuestReqEdgesTo ql x }) := by
  induction ql generalizing npcs items quests with
  | nil =>
    cases h : JMap.get items x <;>
      simp [indexQuests, allQuestRewardEdgesTo, allQuestReqEdgesTo, h]
  | cons p rest ih =>
    rcases p with ⟨qkey, q⟩
    simp only [indexQuests]
    rw [ih]
    rw [indexQuestItemReqs_items, indexQuestRewards_items]
    have hrew : allQuestRewardEdgesTo ((qkey, q) :: rest) x =
        rewardEdgesTo q.id q.name q.rewardItems x ++ allQuestRewardEdgesTo rest x := by
      simp [allQuestRewardEdgesTo, List.flatMap_cons]
    have hreq : allQuestReqEdgesTo ((qkey, q) :: rest) x =
        reqEdgesTo q.id q.name q.itemRequirements x ++ allQuestReqEdgesTo rest x := by
      simp [allQuestReqEdgesTo, List.flatMap_cons]
    rw [hrew, hreq]
    cases JMap.get items x <;> simp [List.append_assoc]

theorem indexQuests_npcKey (ql : List (Int × GameQuest)) (npcs : JMap Int GameNpc)
    (items : JMap Int GameItem) (quests : JMap Int GameQuest) (vidx : JMap Int Int) (x : Int) :
    (JMap.get (indexQuests npcs items quests vidx ql).1 x).map npcKey =
      (JMap.get npcs x).map npcKey := by
  rw [indexQuests_npcs]
  cases JMap.get npcs x <;> simp [npcKey]

theorem indexQuests_quests (ql : List (Int × GameQuest)) (npcs : JMap Int GameNpc)
    (items : JMap Int GameItem) (quests : JMap Int GameQuest) (vidx : JMap Int Int)
    (hnd : (ql.map Prod.fst).Nodup) (qk : Int) :
    JMap.get (indexQuests npcs items quests vidx ql).2.2 qk =
      (match JMap.get ql qk with
       | some q => some (transformQuest npcs items vidx q)
       | none => JMap.get quests qk) := by
  induction ql generalizing npcs items quests with
  | nil => simp [indexQuests, JMap.get]
  | cons p rest ih =>
    rcases p with ⟨qkey, q⟩
    rw [List.map_cons] at hnd
    have hnd1 := List.nodup_cons.mp hnd
    simp only [indexQuests]
    rw [ih _ _ _ hnd1.2]
    have hq1 :
        ({ q with
           involvedNpcs := (indexQuestNpcRefs npcs vidx q.id q.name q.involvedNpcs).2,
           rewardItems := (indexQuestRewards items q.id q.name q.rewardItems).2,
           killRequirements := (indexQuestKills
             (indexQuestNpcRefs npcs vidx q.id q.name q.involvedNpcs).1
             q.id q.name q.killRequirements).2,
           itemRequirements := (indexQuestItemReqs
             (indexQuestRewards items q.id q.name q.rewardItems).1
             q.id q.name q.itemRequirements).2 } : GameQuest) =
        transformQuest npcs items vidx q := by
      rw [indexQuestNpcRefs_entries, indexQuestRewards_entries, indexQuestKills_entries,
          indexQuestItemReqs_entries]
      unfold transformQuest
      rw [List.map_congr_left (fun kr _ => resolveQuestKill_congr _ npcs kr
            (fun y => indexQuestNpcRefs_npcKey q.involvedNpcs npcs vidx q.id q.name y)),
          List.map_congr_left (fun r _ => resolveQuestItemReq_congr _ items r
            (fun y => indexQuestRewards_name q.rewardItems items q.id q.name y))]
    rw [hq1]
    by_cases hk : qk = qkey
    · subst hk
      have hrest : JMap.get rest qk = none := JMap.get_eq_none_of_not_mem rest qk hnd1.1
      have hcons : JMap.get ((qk, q) :: rest) qk = some q := by simp [JMap.get]
      rw [hrest, hcons, JMap.get_set_self]
    · have hcons : JMap.get ((qkey, q) :: rest) qk = JMap.get rest qk := by
        simp [JMap.get, hk]
      rw [hcons]
      cases hr : JMap.get rest qk with
      | none => rw [JMap.get_set_ne _ _ _ _ hk]
      | some q2 =>
        have ht : transformQuest (indexQuestKills
              (indexQuestNpcRefs npcs vidx q.id q.name q.involvedNpcs).1
              q.id q.name q.killRequirements).1
            (indexQuestItemReqs (indexQuestRewards items q.id q.name q.rewardItems).1
              q.id q.name q.itemRequirements).1 vidx q2 =
            transformQuest npcs items vidx q2 := by
          apply transformQuest_congr
          · intro y
            rw [indexQuestKills_npcKey, indexQuestNpcRefs_npcKey]
          · intro y
            rw [indexQuestItemReqs_name, indexQuestRewards_name]
        exact congrArg some ht

/-! ## Claim C3 -/

/-- Claim C3: a quest dialogue directive referencing an NPC by vendor id
resolves through the vendor-id index built before quest indexing: the
resulting quest entry carries the NPC's primary id (`enfId := npc.id`, not
the vendor id, which stays in `npcId`) and the NPC's name, and a dialogue
involvement is appended on that NPC; a kill-requirement directive resolves
directly against the primary NPC table with no vendor-id translation. -/
theorem quest_npc_resolution
    (npcs : JMap Int GameNpc) (items : JMap Int GameItem) (quests : JMap Int GameQuest)
    (npcs' : JMap Int GameNpc) (items' : JMap Int GameItem) (quests' : JMap Int GameQuest)
    (hnd : (quests.map Prod.fst).Nodup)
    (hrun : indexQuests npcs items quests (buildVendorIndex npcs) quests =
      (npcs', items', quests')) :
    ∀ qk q, JMap.get quests qk = some q →
      ∃ q', JMap.get quests' qk = some q' ∧
        (∀ e ∈ q.involvedNpcs, ∀ k npc,
          JMap.get (buildVendorIndex npcs) e.npcId = some k →
          JMap.get npcs k = some npc →
            ({ e with npcName := npc.name, enfId := some npc.id,
                      graphicId := some npc.graphicId } : QuestNpcRef) ∈ q'.involvedNpcs ∧
            ∃ npc', JMap.get npcs' k = some npc' ∧
              ({ questId := q.id, questName := q.name, role := QuestRole.dialogue } :
                QuestInvolvement) ∈ npc'.questInvolvement) ∧
        (∀ kr ∈ q.killRequirements, ∀ npc,
          JMap.get npcs kr.npcId = some npc →
            ({ kr with npcName := npc.name, enfId := some npc.id,
                       graphicId := some npc.graphicId } : QuestKillReq) ∈ q'.killRequirements ∧
            ∃ npc', JMap.get npcs' kr.npcId = some npc' ∧
              ({ questId := q.id, questName := q.name, role := QuestRole.kill } :
                QuestInvolvement) ∈ npc'.questInvolvement) := by
  intro qk q hq
  have hQ : quests' = (indexQuests npcs items quests (buildVendorIndex npcs) quests).2.2 := by
    rw [hrun]
  have hNp : npcs' = (indexQuests npcs items quests (buildVendorIndex npcs) quests).1 := by
    rw [hrun]
  subst hQ
  subst hNp
  refine ⟨transformQuest npcs items (buildVendorIndex npcs) q, ?_, ?_, ?_⟩
  · rw [indexQuests_quests quests npcs items quests (buildVendorIndex npcs) hnd qk, hq]
  · intro e he k npc hv hn
    constructor
    · show _ ∈ (transformQuest npcs items (buildVendorIndex npcs) q).involvedNpcs
      apply List.mem_map.mpr
      refine ⟨e, he, ?_⟩
      simp [resolveQuestRef, hv, hn]
    · refine ⟨{ npc with questInvolvement := npc.questInvolvement ++
        allQuestNpcEdgesTo (buildVendorIndex npcs) quests k }, ?_, ?_⟩
      · rw [indexQuests_npcs quests npcs items quests (buildVendorIndex npcs) k, hn]
        rfl
      · show _ ∈ npc.questInvolvement ++ allQuestNpcEdgesTo (buildVendorIndex npcs) quests k
        apply List.mem_append_right
        apply List.mem_flatMap.mpr
        refine ⟨(qk, q), JMap.mem_of_get_eq_some quests qk q hq, ?_⟩
        show _ ∈ dialogEdgesTo _ q.id q.name q.involvedNpcs k ++
          killEdgesTo q.id q.name q.killRequirements k
        apply List.mem_append_left
        apply List.mem_map.mpr
        refine ⟨e, List.mem_filter.mpr ⟨he, by simp [hv]⟩, rfl⟩
  · intro kr hkr npc hn
    constructor
    · show _ ∈ (transformQuest npcs items (buildVendorIndex npcs) q).killRequirements
      apply List.mem_map.mpr
      refine ⟨kr, hkr, ?_⟩
      simp [resolveQuestKill, hn]
    · refine ⟨{ npc with questInvolvement := npc.questInvolvement ++
        allQuestNpcEdgesTo (buildVendorIndex npcs) quests kr.npcId }, ?_, ?_⟩
      · rw [indexQuests_npcs quests npcs items quests (buildVendorIndex npcs) kr.npcId, hn]
        rfl
      · show _ ∈ npc.questInvolvement ++
          allQuestNpcEdgesTo (buildVendorIndex npcs) quests kr.npcId
        apply List.mem_append_right
        apply List.mem_flatMap.mpr
        refine ⟨(qk, q), JMap.mem_of_get_eq_some quests qk q hq, ?_⟩
        show _ ∈ dialogEdgesTo _ q.id q.name q.involvedNpcs kr.npcId ++
          killEdgesTo q.id q.name q.killRequirements kr.npcId
        apply List.mem_append_right
        apply List.mem_map.mpr
        refine ⟨kr, List.mem_filter.mpr ⟨hkr, by simp⟩, rfl⟩

/-- Concrete NPC for the C3 witness: primary id 12, vendor id 500. -/
def wNpc3 : GameNpc :=
  { id := 12, name := "Elder", graphicId := 7, behaviorId := 500, boss := false,
    child := false, npcType := 0 }

/-- Concrete NPC table for the C3 witness. -/
def wNpcs3 : JMap Int GameNpc := [(12, wNpc3)]

/-- Concrete item table for the C3 witness. -/
def wItems3 : JMap Int GameItem := []

/-- Concrete quest for the C3 witness: a dialogue reference to vendor id
500 and a kill requirement naming primary id 12. -/
def wQuest3 : GameQuest :=
  { id := 1, name := "Trial", involvedNpcs := [{ npcId := 500 }], rewardItems := [],
    rewardExp := 0, killRequirements := [{ npcId := 12, count := 5 }],
    itemRequirements := [] }

/-- Concrete quest table for the C3 witness. -/
def wQuests3 : JMap Int GameQuest := [(1, wQuest3)]

theorem quest_npc_resolution_witness :
    ∃ q', JMap.get
        (indexQuests wNpcs3 wItems3 wQuests3 (buildVendorIndex wNpcs3) wQuests3).2.2 1 =
          some q' ∧
      (∀ e ∈ wQuest3.involvedNpcs, ∀ k npc,
        JMap.get (buildVendorIndex wNpcs3) e.npcId = some k →
        JMap.get wNpcs3 k = some npc →
          ({ e with npcName := npc.name, enfId := some npc.id,
                    graphicId := some npc.graphicId } : QuestNpcRef) ∈ q'.involvedNpcs ∧
          ∃ npc', JMap.get
              (indexQuests wNpcs3 wItems3 wQuests3 (buildVendorIndex wNpcs3) wQuests3).1 k =
                some npc' ∧
            ({ questId := wQuest3.id, questName := wQuest3.name, role := QuestRole.dialogue } :
              QuestInvolvement) ∈ npc'.questInvolvement) ∧
      (∀ kr ∈ wQuest3.killRequirements, ∀ npc,
        JMap.get wNpcs3 kr.npcId = some npc →
          ({ kr with npcName := npc.name, enfId := some npc.id,
                     graphicId := some npc.graphicId } : QuestKillReq) ∈ q'.killRequirements ∧
          ∃ npc', JMap.get
              (indexQuests wNpcs3 wItems3 wQuests3 (buildVendorIndex wNpcs3) wQuests3).1
                kr.npcId = some npc' ∧
            ({ questId := wQuest3.id, questName := wQuest3.name, role := QuestRole.kill } :
              QuestInvolvement) ∈ npc'.questInvolvement) :=
  quest_npc_resolution wNpcs3 wItems3 wQuests3 _ _ _ (by decide) rfl 1 wQuest3 rfl

/-! ## Claim C5 -/

theorem filter_nil_of {α : Type} (l : List α) (p : α → Bool)
    (h : ∀ a ∈ l, p a = false) : l.filter p = [] := by
  induction l with
  | nil => rfl
  | cons a t ih =>
    rw [List.filter_cons, h a (List.mem_cons_self a t)]
    exact ih (fun b hb => h b (List.mem_cons_of_mem a hb))

theorem flatMap_nil_of {α β : Type} (l : List α) (f : α → List β)
    (h : ∀ a ∈ l, f a = []) : l.flatMap f = [] := by
  induction l with
  | nil => rfl
  | cons a t ih =>
    rw [List.flatMap_cons, h a (List.mem_cons_self a t)]
    exact ih (fun b hb => h b (List.mem_cons_of_mem a hb))

/-- Claim C5: relationship edges are created only between existing
endpoints, and a dangling reference produces zero edges on either side
(the passes are total functions — nothing throws).  Part one: after the
drops pass on fresh tables, every NPC-side entry references an item
present in the loaded item table and every item-side entry references an
NPC present in the loaded NPC table.  Part two: in the quest pass, an NPC
or item that no quest references keeps its entry entirely unchanged, and
a dialogue reference, kill requirement, reward or item requirement whose
id does not resolve is left untouched on the quest side (no name, no
resolved id). -/
theorem edges_require_existing_endpoints :
    (∀ (items : JMap Int GameItem) (npcs : JMap Int GameNpc) (dl : JMap Int (List ItemDrop))
       (items' : JMap Int GameItem) (npcs' : JMap Int GameNpc),
      (dl.map Prod.fst).Nodup →
      (∀ k it, JMap.get items k = some it → it.dropsFrom = []) →
      (∀ k npc, JMap.get npcs k = some npc → npc.drops = []) →
      indexDrops items npcs dl = (items', npcs') →
      (∀ npcId npc, JMap.get npcs' npcId = some npc →
        ∀ d ∈ npc.drops, (JMap.get items d.itemId).isSome) ∧
      (∀ itemId item, JMap.get items' itemId = some item →
        ∀ nd ∈ item.dropsFrom, (JMap.get npcs nd.npcId).isSome)) ∧
    (∀ (npcs : JMap Int GameNpc) (items : JMap Int GameItem) (quests : JMap Int GameQuest)
       (vidx : JMap Int Int) (npcs' : JMap Int GameNpc) (items' : JMap Int GameItem)
       (quests' : JMap Int GameQuest),
      indexQuests npcs items quests vidx quests = (npcs', items', quests') →
      (∀ k, (∀ p ∈ quests, ∀ e ∈ p.2.involvedNpcs, ¬ JMap.get vidx e.npcId = some k) →
            (∀ p ∈ quests, ∀ kr ∈ p.2.killRequirements, ¬ kr.npcId = k) →
            JMap.get npcs' k = JMap.get npcs k) ∧
      (∀ k, (∀ p ∈ quests, ∀ r ∈ p.2.rewardItems, ¬ r.itemId = k) →
            (∀ p ∈ quests, ∀ r ∈ p.2.itemRequirements, ¬ r.itemId = k) →
            JMap.get items' k = JMap.get items k) ∧
      ((quests.map Prod.fst).Nodup →
        ∀ qk q, JMap.get quests qk = some q →
          ∃ q', JMap.get quests' qk = some q' ∧
            (∀ e ∈ q.involvedNpcs,
              (JMap.get vidx e.npcId).bind
                (fun k => (JMap.get npcs k).map (fun n => (k, n))) = none →
              e ∈ q'.involvedNpcs) ∧
            (∀ kr ∈ q.killRequirements, JMap.get npcs kr.npcId = none →
              kr ∈ q'.killRequirements) ∧
            (∀ r ∈ q.rewardItems, JMap.get items r.itemId = none → r ∈ q'.rewardItems) ∧
            (∀ r ∈ q.itemRequirements, JMap.get items r.itemId = none →
              r ∈ q'.itemRequirements))) := by
  constructor
  · intro items npcs dl items' npcs' hnd hfreshI hfreshN hrun
    have hI : items' = (indexDrops items npcs dl).1 := by rw [hrun]
    have hN : npcs' = (indexDrops items npcs dl).2 := by rw [hrun]
    subst hI
    subst hN
    constructor
    · intro npcId npc hget d hd
      rw [indexDrops_npcs dl items npcs hnd npcId] at hget
      obtain ⟨npc0, hn0, hF⟩ := Option.map_eq_some'.mp hget
      cases hdl : JMap.get dl npcId with
      | none =>
        rw [hdl] at hF
        have hdr : npc.drops = [] := by
          rw [← hF]
          exact hfreshN npcId npc0 hn0
        rw [hdr] at hd
        cases hd
      | some ds =>
        rw [hdl] at hF
        have hdrops : npc.drops = resolvedDrops items ds := by rw [← hF]
        rw [hdrops] at hd
        obtain ⟨d0, hd0mem, hd0res⟩ := List.mem_filterMap.mp hd
        obtain ⟨it0, hit0, hd0e⟩ := Option.map_eq_some'.mp hd0res
        have hdid : d.itemId = d0.itemId := by rw [← hd0e]
        rw [hdid, hit0]
        rfl
    · intro itemId item hget nd hndm
      rw [indexDrops_items dl items npcs hnd itemId] at hget
      obtain ⟨it0, hit0, hF⟩ := Option.map_eq_some'.mp hget
      have hfre : it0.dropsFrom = [] := hfreshI itemId it0 hit0
      have hdfrom : item.dropsFrom = outerEdgesTo npcs dl itemId := by
        rw [← hF, hfre]
        simp
      rw [hdfrom] at hndm
      obtain ⟨p, hpmem, hpin⟩ := List.mem_flatMap.mp hndm
      cases hnp : JMap.get npcs p.1 with
      | none => rw [hnp] at hpin; cases hpin
      | some npc0 =>
        rw [hnp] at hpin
        obtain ⟨d0, hd0f, hd0e⟩ := List.mem_map.mp hpin
        have hndid : nd.npcId = p.1 := by rw [← hd0e]
        rw [hndid, hnp]
        rfl
  · intro npcs items quests vidx npcs' items' quests' hrun
    have hN : npcs' = (indexQuests npcs items quests vidx quests).1 := by rw [hrun]
    have hI : items' = (indexQuests npcs items quests vidx quests).2.1 := by rw [hrun]
    have hQ : quests' = (indexQuests npcs items quests vidx quests).2.2 := by rw [hrun]
    subst hN
    subst hI
    subst hQ
    refine ⟨?_, ?_, ?_⟩
    · intro k hdia hkill
      rw [indexQuests_npcs quests npcs items quests vidx k]
      have hzero : allQuestNpcEdgesTo vidx quests k = [] := by
        apply flatMap_nil_of
        intro p hp
        unfold questNpcEdgesTo
        rw [show dialogEdgesTo vidx p.2.id p.2.name p.2.involvedNpcs k = [] from by
              unfold dialogEdgesTo
              rw [filter_nil_of _ _ (fun e he => by
                simp
                exact hdia p hp e he)]
              rfl,
            show killEdgesTo p.2.id p.2.name p.2.killRequirements k = [] from by
              unfold killEdgesTo
              rw [filter_nil_of _ _ (fun kr hkr => by
                simp
                exact hkill p hp kr hkr)]
              rfl]
        rfl
      rw [hzero]
      cases JMap.get npcs k <;> simp
    · intro k hrew hreq
      rw [indexQuests_items quests npcs items quests vidx k]
      have hzero1 : allQuestRewardEdgesTo quests k = [] := by
        apply flatMap_nil_of
        intro p hp
        unfold rewardEdgesTo
        rw [filter_nil_of _ _ (fun r hr => by
          simp
          exact hrew p hp r hr)]
        rfl
      have hzero2 : allQuestReqEdgesTo quests k = [] := by
        apply flatMap_nil_of
        intro p hp
        unfold reqEdgesTo
        rw [filter_nil_of _ _ (fun r hr => by
          simp
          exact hreq p hp r hr)]
        rfl
      rw [hzero1, hzero2]
      cases JMap.get items k <;> simp
    · intro hnd qk q hq
      refine ⟨transformQuest npcs items vidx q, ?_, ?_, ?_, ?_, ?_⟩
      · rw [indexQuests_quests quests npcs items quests vidx hnd qk, hq]
      · intro e he hnone
        show e ∈ (transformQuest npcs items vidx q).involvedNpcs
        apply List.mem_map.mpr
        refine ⟨e, he, ?_⟩
        simp [resolveQuestRef, hnone]
      · intro kr hkr hnone
        show kr ∈ (transformQuest npcs items vidx q).killRequirements
        apply List.mem_map.mpr
        refine ⟨kr, hkr, ?_⟩
        simp [resolveQuestKill, hnone]
      · intro r hr hnone
        show r ∈ (transformQuest npcs items vidx q).rewardItems
        apply List.mem_map.mpr
        refine ⟨r, hr, ?_⟩
        simp [resolveQuestReward, hnone]
      · intro r hr hnone
        show r ∈ (transformQuest npcs items vidx q).itemRequirements
        apply List.mem_map.mpr
        refine ⟨r, hr, ?_⟩
        simp [resolveQuestItemReq, hnone]

/-- Concrete item table for the C5 witness. -/
def wItems5 : JMap Int GameItem := [(5, { id := 5, name := "Ore", graphicId := 1 })]

/-- Concrete NPC table for the C5 witness. -/
def wNpcs5 : JMap Int GameNpc :=
  [(3, { id := 3, name := "Slime", graphicId := 4, behaviorId := 0, boss := false,
         child := false, npcType := 0 })]

/-- Concrete drop tables for the C5 witness: one dangling item reference
(99) and one dangling NPC table (77). -/
def wDrops5 : JMap Int (List ItemDrop) :=
  [(3, [{ itemId := 99, itemName := "", minAmount := 1, maxAmount := 1, dropRate := 1 },
        { itemId := 5, itemName := "", minAmount := 1, maxAmount := 2, dropRate := 1 }]),
   (77, [{ itemId := 5, itemName := "", minAmount := 1, maxAmount := 1, dropRate := 1 }])]

/-- Concrete quest for the C5 witness: every reference dangles. -/
def wQuest5 : GameQuest :=
  { id := 2, name := "Hunt", involvedNpcs := [{ npcId := 444 }],
    rewardItems := [{ itemId := 99, amount := 1 }], rewardExp := 0,
    killRequirements := [{ npcId := 88, count := 1 }],
    itemRequirements := [{ itemId := 98, count := 2 }] }

/-- Concrete quest table for the C5 witness. -/
def wQuests5 : JMap Int GameQuest := [(2, wQuest5)]

theorem edges_require_existing_endpoints_witness :
    ((∀ npcId npc, JMap.get (indexDrops wItems5 wNpcs5 wDrops5).2 npcId = some npc →
        ∀ d ∈ npc.drops, (JMap.get wItems5 d.itemId).isSome) ∧
     (∀ itemId item, JMap.get (indexDrops wItems5 wNpcs5 wDrops5).1 itemId = some item →
        ∀ nd ∈ item.dropsFrom, (JMap.get wNpcs5 nd.npcId).isSome)) ∧
    ((∀ k, (∀ p ∈ wQuests5, ∀ e ∈ p.2.involvedNpcs,
              ¬ JMap.get (buildVendorIndex wNpcs5) e.npcId = some k) →
           (∀ p ∈ wQuests5, ∀ kr ∈ p.2.killRequirements, ¬ kr.npcId = k) →
           JMap.get (indexQuests wNpcs5 wItems5 wQuests5 (buildVendorIndex wNpcs5)
             wQuests5).1 k = JMap.get wNpcs5 k) ∧
     (∀ k, (∀ p ∈ wQuests5, ∀ r ∈ p.2.rewardItems, ¬ r.itemId = k) →
           (∀ p ∈ wQuests5, ∀ r ∈ p.2.itemRequirements, ¬ r.itemId = k) →
           JMap.get (indexQuests wNpcs5 wItems5 wQuests5 (buildVendorIndex wNpcs5)
             wQuests5).2.1 k = JMap.get wItems5 k) ∧
     ((wQuests5.map Prod.fst).Nodup →
       ∀ qk q, JMap.get wQuests5 qk = some q →
         ∃ q', JMap.get (indexQuests wNpcs5 wItems5 wQuests5 (buildVendorIndex wNpcs5)
             wQuests5).2.2 qk = some q' ∧
           (∀ e ∈ q.involvedNpcs,
             (JMap.get (buildVendorIndex wNpcs5) e.npcId).bind
               (fun k => (JMap.get wNpcs5 k).map (fun n => (k, n))) = none →
             e ∈ q'.involvedNpcs) ∧
           (∀ kr ∈ q.killRequirements, JMap.get wNpcs5 kr.npcId = none →
             kr ∈ q'.killRequirements) ∧
           (∀ r ∈ q.rewardItems, JMap.get wItems5 r.itemId = none → r ∈ q'.rewardItems) ∧
           (∀ r ∈ q.itemRequirements, JMap.get wItems5 r.itemId = none →
             r ∈ q'.itemRequirements))) := by
  constructor
  · apply edges_require_existing_endpoints.1 wItems5 wNpcs5 wDrops5 _ _ (by decide) ?_ ?_ rfl
    · intro k it h
      by_cases hk : k = (5 : Int)
      · subst hk
        rw [show JMap.get wItems5 5 = some { id := 5, name := "Ore", graphicId := 1 } from rfl]
          at h
        cases h
        rfl
      · rw [JMap.get_eq_none_of_not_mem wItems5 k (by simp [wItems5, hk])] at h
        cases h
    · intro k npc h
      by_cases hk : k = (3 : Int)
      · subst hk
        rw [show JMap.get wNpcs5 3 =
            some { id := 3, name := "Slime", graphicId := 4, behaviorId := 0, boss := false,
                   child := false, npcType := 0 } from rfl] at h
        cases h
        rfl
      · rw [JMap.get_eq_none_of_not_mem wNpcs5 k (by simp [wNpcs5, hk])] at h
        cases h
  · exact edges_require_existing_endpoints.2 wNpcs5 wItems5 wQuests5
      (buildVendorIndex wNpcs5) _ _ _ rfl

/-! ## Claim C8 -/

theorem indexNpcSpellcasts_npcs (sc : List (Int × List SpellcastInfo))
    (npcs : JMap Int GameNpc) (spells : JMap Int GameSpell)
    (hnd : (sc.map Prod.fst).Nodup) (k : Int) :
    JMap.get (indexNpcSpellcasts npcs spells sc) k =
      (JMap.get npcs k).map (fun npc =>
        match JMap.get sc k with
        | some casts =>
          match casts.map (resolveCast spells) with
          | c :: _ => { npc with spellcasting := some c }
          | [] => npc
        | none => npc) := by
  induction sc generalizing npcs with
  | nil =>
    cases h : JMap.get npcs k <;> simp [indexNpcSpellcasts, JMap.get, h]
  | cons p rest ih =>
    rcases p with ⟨nid, casts⟩
    rw [List.map_cons] at hnd
    have hnd1 := List.nodup_cons.mp hnd
    cases hn : JMap.get npcs nid with
    | none =>
      simp only [indexNpcSpellcasts, hn]
      rw [ih npcs hnd1.2]
      by_cases hk : k = nid
      · subst hk
        simp [hn]
      · have hr : JMap.get ((nid, casts) :: rest) k = JMap.get rest k := by
          simp [JMap.get, hk]
        rw [hr]
    | some npc =>
      simp only [indexNpcSpellcasts, hn]
      cases hm : casts.map (resolveCast spells) with
      | nil =>
        rw [ih npcs hnd1.2]
        by_cases hk : k = nid
        · subst hk
          have hrest : JMap.get rest k = none := JMap.get_eq_none_of_not_mem rest k hnd1.1
          have hcons : JMap.get ((k, casts) :: rest) k = some casts := by simp [JMap.get]
          rw [hrest, hcons, hn]
          simp [hm]
        · have hr : JMap.get ((nid, casts) :: rest) k = JMap.get rest k := by
            simp [JMap.get, hk]
          rw [hr]
      | cons c cs =>
        rw [ih _ hnd1.2]
        by_cases hk : k = nid
        · subst hk
          rw [JMap.get_set_self]
          have hrest : JMap.get rest k = none := JMap.get_eq_none_of_not_mem rest k hnd1.1
          have hcons : JMap.get ((k, casts) :: rest) k = some casts := by simp [JMap.get]
          rw [hrest, hcons, hn]
          simp [hm]
        · rw [JMap.get_set_ne _ _ _ _ hk]
          have hr : JMap.get ((nid, casts) :: rest) k = JMap.get rest k := by
            simp [JMap.get, hk]
          rw [hr]

/-- Claim C8: for an NPC with at least one parsed spellcast entry, the
pass attaches exactly the FIRST entry in parse order (later entries are
discarded), with the referenced spell's name resolved onto the retained
entry when the spell id exists in the spell table. -/
theorem npc_spellcasting_first_entry
    (npcs : JMap Int GameNpc) (spells : JMap Int GameSpell)
    (sc : JMap Int (List SpellcastInfo))
    (hnd : (sc.map Prod.fst).Nodup)
    (npcId : Int) (npc : GameNpc) (c : SpellcastInfo) (rest : List SpellcastInfo)
    (hsc : JMap.get sc npcId = some (c :: rest))
    (hn : JMap.get npcs npcId = some npc) :
    JMap.get (indexNpcSpellcasts npcs spells sc) npcId =
      some { npc with spellcasting := some (resolveCast spells c) } ∧
    (∀ sp, JMap.get spells c.spellId = some sp →
      resolveCast spells c = { c with spellName := sp.name }) := by
  constructor
  · rw [indexNpcSpellcasts_npcs sc npcs spells hnd npcId, hn, hsc]
    rfl
  · intro sp hsp
    simp [resolveCast, hsp]

/-- Concrete NPC table for the C8 witness. -/
def wNpcs8 : JMap Int GameNpc :=
  [(4, { id := 4, name := "Witch", graphicId := 9, behaviorId := 0, boss := false,
         child := false, npcType := 0 })]

/-- Concrete spell table for the C8 witness. -/
def wSpells8 : JMap Int GameSpell := [(9, { id := 9, name := "Fire", shout := "", graphicId := 2 })]

/-- Concrete spellcast entries for the C8 witness: two parsed entries. -/
def wCast1 : SpellcastInfo :=
  { spellId := 9, spellName := "", castType := CastType.target, damage := 10, chance := 1 }

/-- Second (discarded) spellcast entry for the C8 witness. -/
def wCast2 : SpellcastInfo :=
  { spellId := 9, spellName := "", castType := CastType.aoe, damage := 99, chance := 1 }

/-- Concrete spellcast table for the C8 witness. -/
def wSc8 : JMap Int (List SpellcastInfo) := [(4, [wCast1, wCast2])]

theorem npc_spellcasting_first_entry_witness :
    JMap.get (indexNpcSpellcasts wNpcs8 wSpells8 wSc8) 4 =
      some { id := 4, name := "Witch", graphicId := 9, behaviorId := 0, boss := false,
             child := false, npcType := 0,
             spellcasting := some (resolveCast wSpells8 wCast1) } ∧
    (∀ sp, JMap.get wSpells8 wCast1.spellId = some sp →
      resolveCast wSpells8 wCast1 = { wCast1 with spellName := sp.name }) :=
  npc_spellcasting_first_entry wNpcs8 wSpells8 wSc8 (by decide) 4
    { id := 4, name := "Witch", graphicId := 9, behaviorId := 0, boss := false,
      child := false, npcType := 0 }
    wCast1 [wCast2] rfl rfl

/-! ## Claim C9 -/

theorem JMap.isSome_get_set {κ α : Type} [DecidableEq κ] (m : JMap κ α) (k k' : κ) (v : α)
    (h : (JMap.get (JMap.set m k v) k').isSome) : k' = k ∨ (JMap.get m k').isSome := by
  by_cases hk : k' = k
  · exact Or.inl hk
  · rw [JMap.get_set_ne _ _ _ _ hk] at h
    exact Or.inr h

theorem loadMapsFold_mem (fetch : Int → Option EmfData) (l : List Int)
    (acc : JMap Int GameMap × List MapNpcSpawn) (k : Int)
    (h : (JMap.get (l.foldl (loadMapsStep fetch) acc).1 k).isSome) :
    (JMap.get acc.1 k).isSome ∨ k ∈ l := by
  induction l generalizing acc with
  | nil => exact Or.inl h
  | cons i rest ih =>
    rw [List.foldl_cons] at h
    rcases ih (loadMapsStep fetch acc i) h with h1 | h1
    · unfold loadMapsStep at h1
      cases hf : fetch i with
      | none => rw [hf] at h1; exact Or.inl h1
      | some emf =>
        rw [hf] at h1
        simp only [] at h1
        rcases JMap.isSome_get_set _ _ _ _ h1 with h2 | h2
        · exact Or.inr (by simp [h2])
        · exact Or.inl h2
    · exact Or.inr (List.mem_cons_of_mem i h1)

theorem loadQuestsFold_mem (fetch : Int → Option String) (l : List Int)
    (acc : JMap Int GameQuest) (k : Int)
    (h : (JMap.get (l.foldl (loadQuestsStep fetch) acc) k).isSome) :
    (JMap.get acc k).isSome ∨ k ∈ l := by
  induction l generalizing acc with
  | nil => exact Or.inl h
  | cons i rest ih =>
    rw [List.foldl_cons] at h
    rcases ih (loadQuestsStep fetch acc i) h with h1 | h1
    · unfold loadQuestsStep at h1
      cases hf : fetch i with
      | none => rw [hf] at h1; exact Or.inl h1
      | some content =>
        rw [hf] at h1
        simp only [] at h1
        cases hp : parseQuestDSL i content with
        | none => rw [hp] at h1; exact Or.inl h1
        | some q =>
          rw [hp] at h1
          rcases JMap.isSome_get_set _ _ _ _ h1 with h2 | h2
          · exact Or.inr (by simp [h2])
          · exact Or.inl h2
    · exact Or.inr (List.mem_cons_of_mem i h1)

theorem mem_mapIdRange (i : Int) : i ∈ mapIdRange ↔ 0 ≤ i ∧ i ≤ 400 := by
  constructor
  · intro h
    obtain ⟨n, hn, he⟩ := List.mem_map.mp h
    rw [List.mem_range] at hn
    rw [Int.ofNat_eq_natCast] at he
    omega
  · intro hi
    apply List.mem_map.mpr
    refine ⟨i.toNat, List.mem_range.mpr (by omega), ?_⟩
    rw [Int.ofNat_eq_natCast]
    omega

theorem mem_questIdRange (i : Int) : i ∈ questIdRange ↔ 1 ≤ i ∧ i ≤ 150 := by
  constructor
  · intro h
    obtain ⟨n, hn, he⟩ := List.mem_map.mp h
    rw [List.mem_range] at hn
    rw [Int.ofNat_eq_natCast] at he
    omega
  · intro hi
    apply List.mem_map.mpr
    refine ⟨(i - 1).toNat, List.mem_range.mpr (by omega), ?_⟩
    show Int.ofNat (i - 1).toNat + 1 = i
    rw [Int.ofNat_eq_natCast]
    omega

theorem loadMapsFold_congr (f g : Int → Option EmfData) (l : List Int)
    (acc : JMap Int GameMap × List MapNpcSpawn)
    (h : ∀ i ∈ l, f i = g i) :
    l.foldl (loadMapsStep f) acc = l.foldl (loadMapsStep g) acc := by
  induction l generalizing acc with
  | nil => rfl
  | cons i rest ih =>
    rw [List.foldl_cons, List.foldl_cons]
    have hstep : loadMapsStep f acc i = loadMapsStep g acc i := by
      unfold loadMapsStep
      rw [h i (List.mem_cons_self i rest)]
    rw [hstep]
    exact ih _ (fun j hj => h j (List.mem_cons_of_mem i hj))

theorem loadQuestsFold_congr (f g : Int → Option String) (l : List Int)
    (acc : JMap Int GameQuest)
    (h : ∀ i ∈ l, f i = g i) :
    l.foldl (loadQuestsStep f) acc = l.foldl (loadQuestsStep g) acc := by
  induction l generalizing acc with
  | nil => rfl
  | cons i rest ih =>
    rw [List.foldl_cons, List.foldl_cons]
    have hstep : loadQuestsStep f acc i = loadQuestsStep g acc i := by
      unfold loadQuestsStep
      rw [h i (List.mem_cons_self i rest)]
    rw [hstep]
    exact ih _ (fun j hj => h j (List.mem_cons_of_mem i hj))

/-- Claim C9: map loading scans exactly the ids 0 through 400 and quest
loading exactly the ids 1 through 150; every published map id lies in
[0, 400], every published quest id in [1, 150], and the loaders depend on
no file outside those ranges (a fetcher changed only outside the range
yields the identical result). -/
theorem fixed_scan_ranges :
    mapIdRange = List.map Int.ofNat (List.range 401) ∧
    questIdRange = List.map (fun n => Int.ofNat n + 1) (List.range 150) ∧
    (∀ fetch k m, JMap.get (loadMaps fetch).1 k = some m → 0 ≤ k ∧ k ≤ 400) ∧
    (∀ fetch k q, JMap.get (loadQuests fetch) k = some q → 1 ≤ k ∧ k ≤ 150) ∧
    (∀ f g, (∀ i, 0 ≤ i → i ≤ 400 → f i = g i) → loadMaps f = loadMaps g) ∧
    (∀ f g, (∀ i, 1 ≤ i → i ≤ 150 → f i = g i) → loadQuests f = loadQuests g) := by
  refine ⟨rfl, rfl, ?_, ?_, ?_, ?_⟩
  · intro fetch k m h
    have h1 : (JMap.get (loadMaps fetch).1 k).isSome := by rw [h]; rfl
    unfold loadMaps at h1
    rcases loadMapsFold_mem fetch mapIdRange ([], []) k h1 with h2 | h2
    · simp [JMap.get] at h2
    · exact (mem_mapIdRange k).mp h2
  · intro fetch k q h
    have h1 : (JMap.get (loadQuests fetch) k).isSome := by rw [h]; rfl
    unfold loadQuests at h1
    rcases loadQuestsFold_mem fetch questIdRange [] k h1 with h2 | h2
    · simp [JMap.get] at h2
    · exact (mem_questIdRange k).mp h2
  · intro f g h
    unfold loadMaps
    exact loadMapsFold_congr f g mapIdRange ([], [])
      (fun i hi => h i ((mem_mapIdRange i).mp hi).1 ((mem_mapIdRange i).mp hi).2)
  · intro f g h
    unfold loadQuests
    exact loadQuestsFold_congr f g questIdRange []
      (fun i hi => h i ((mem_questIdRange i).mp hi).1 ((mem_questIdRange i).mp hi).2)

/-- Concrete map fetcher for the C9 witness: only id 7 exists. -/
def wMapFetch9 : Int → Option EmfData :=
  fun i => if i = 7 then some { name := "Town", npcs := [] } else none

/-- Concrete quest fetcher for the C9 witness: only id 2 exists. -/
def wQuestFetch9 : Int → Option String :=
  fun i => if i = 2 then some "questname 'Dawn'" else none

set_option maxRecDepth 10000 in
theorem fixed_scan_ranges_witness :
    (0 ≤ (7 : Int) ∧ (7 : Int) ≤ 400) ∧ (1 ≤ (2 : Int) ∧ (2 : Int) ≤ 150) :=
  ⟨fixed_scan_ranges.2.2.1 wMapFetch9 7 { id := 7, name := "Town" } (by decide),
   fixed_scan_ranges.2.2.2.1 wQuestFetch9 2
     { id := 2, name := "Dawn", involvedNpcs := [], rewardItems := [], rewardExp := 0,
       killRequirements := [], itemRequirements := [] } (by decide)⟩

/-! ## Claim C6 -/

/-- Claim C6: the build is a deterministic function of its input sources —
two runs of `loadGameDatabase` on the same `DataSources` that both resolve
yield structurally equal snapshots: the same entity tables per kind, the
same relationship edges (contained in the entity values) and the same
name indices. -/
theorem build_deterministic (src : DataSources) (db1 db2 : GameDatabase)
    (h1 : loadGameDatabase src = Except.ok db1)
    (h2 : loadGameDatabase src = Except.ok db2) :
    db1 = db2 ∧ db1.items = db2.items ∧ db1.npcs = db2.npcs ∧ db1.spells = db2.spells ∧
    db1.classes = db2.classes ∧ db1.maps = db2.maps ∧ db1.quests = db2.quests ∧
    db1.itemsByName = db2.itemsByName ∧ db1.npcsByName = db2.npcsByName ∧
    db1.spellsByName = db2.spellsByName := by
  rw [h1] at h2
  cases h2
  exact ⟨rfl, rfl, rfl, rfl, rfl, rfl, rfl, rfl, rfl, rfl⟩

/-- Concrete sources for the C6 witness: minimal but complete inputs. -/
def wSrc6 : DataSources :=
  { eif := some [{ name := "Gold", graphicId := 1 }],
    enf := some [{ name := "Crow", graphicId := 1, behaviorId := 0, boss := false,
                   child := false, npcType := 0 }],
    esf := some [], ecf := some [],
    dropsIni := some "1 = 1,1,1,1.0", shopsIni := some "", petsIni := some "",
    specialDropsIni := some "", specialMobsIni := some "", npcSpellcastIni := some "",
    mapFile := fun _ => none, questFile := fun _ => none }

/-- The database the C6/C7 witnesses run on (total by construction: the
fallback branch is never taken on `wSrc6`). -/
def wDb6 : GameDatabase :=
  match loadGameDatabase wSrc6 with
  | Except.ok db => db
  | Except.error _ =>
    { items := [], npcs := [], spells := [], classes := [], maps := [], quests := [],
      itemsByName := [], npcsByName := [], spellsByName := [] }

set_option maxRecDepth 10000 in
theorem build_deterministic_witness :
    wDb6 = wDb6 ∧ wDb6.items = wDb6.items ∧ wDb6.npcs = wDb6.npcs ∧
    wDb6.spells = wDb6.spells ∧ wDb6.classes = wDb6.classes ∧ wDb6.maps = wDb6.maps ∧
    wDb6.quests = wDb6.quests ∧ wDb6.itemsByName = wDb6.itemsByName ∧
    wDb6.npcsByName = wDb6.npcsByName ∧ wDb6.spellsByName = wDb6.spellsByName :=
  build_deterministic wSrc6 wDb6 wDb6 (by with_unfolding_all rfl) (by with_unfolding_all rfl)

/-! ## Claim C7 -/

theorem exceptBind_ok {ε α β : Type} (e : Except ε α) (f : α → Except ε β) (b : β)
    (h : (e >>= f) = Except.ok b) : ∃ a, e = Except.ok a ∧ f a = Except.ok b := by
  cases e with
  | error err =>
    rw [show (Except.error err >>= f : Except ε β) = Except.error err from rfl] at h
    cases h
  | ok a =>
    exact ⟨a, rfl, h⟩

theorem buildNameIndex_get {α : Type} (f : α → String) (xs : List α) (k : String) :
    JMap.get (buildNameIndex f xs) k =
      (xs.filter (fun x => decide (f x ≠ "" ∧ jsToLower (f x) = k))).getLast? := by
  induction xs using List.reverseRecOn with
  | nil => rfl
  | append_singleton ys x ih =>
    unfold buildNameIndex at ih ⊢
    rw [List.foldl_append, List.foldl_cons, List.foldl_nil, List.filter_append]
    by_cases h1 : f x = ""
    · rw [if_neg (by simp [h1])]
      rw [ih]
      rw [show List.filter (fun x => decide (f x ≠ "" ∧ jsToLower (f x) = k)) [x] = [] from by
        simp [h1]]
      rw [List.append_nil]
    · by_cases h2 : jsToLower (f x) = k
      · rw [if_pos (by simp [h1])]
        rw [h2, JMap.get_set_self]
        rw [show List.filter (fun x => decide (f x ≠ "" ∧ jsToLower (f x) = k)) [x] = [x] from by
          simp [h1, h2]]
        rw [List.getLast?_concat]
      · rw [if_pos (by simp [h1])]
        rw [JMap.get_set_ne _ _ _ _ (fun he => h2 he.symm)]
        rw [ih]
        rw [show List.filter (fun x => decide (f x ≠ "" ∧ jsToLower (f x) = k)) [x] = [] from by
          simp [h1, h2]]
        rw [List.append_nil]

/-- Claim C7: the name indices of the published database are keyed by the
lowercased display name (so lookup is case-insensitive) and, on a
duplicate lowercased name, hold the entity processed last in
table-iteration order: looking up any key returns the LAST entity of the
final table (in `values` order) whose non-empty name lowercases to it. -/
theorem name_index_case_insensitive_last_wins (src : DataSources) (db : GameDatabase)
    (h : loadGameDatabase src = Except.ok db) :
    (∀ k, JMap.get db.itemsByName k =
      ((JMap.values db.items).filter
        (fun it => decide (it.name ≠ "" ∧ jsToLower it.name = k))).getLast?) ∧
    (∀ k, JMap.get db.npcsByName k =
      ((JMap.values db.npcs).filter
        (fun n => decide (n.name ≠ "" ∧ jsToLower n.name = k))).getLast?) ∧
    (∀ k, JMap.get db.spellsByName k =
      ((JMap.values db.spells).filter
        (fun sp => decide (sp.name ≠ "" ∧ jsToLower sp.name = k))).getLast?) := by
  unfold loadGameDatabase at h
  obtain ⟨items0, hi0, h⟩ := exceptBind_ok _ _ _ h
  obtain ⟨npcs0, hn0, h⟩ := exceptBind_ok _ _ _ h
  obtain ⟨spells0, hs0, h⟩ := exceptBind_ok _ _ _ h
  obtain ⟨classes0, hc0, h⟩ := exceptBind_ok _ _ _ h
  obtain ⟨pets0, hp0, h⟩ := exceptBind_ok _ _ _ h
  obtain ⟨sd0, hsd0, h⟩ := exceptBind_ok _ _ _ h
  obtain ⟨sm0, hsm0, h⟩ := exceptBind_ok _ _ _ h
  obtain ⟨scs0, hscs0, h⟩ := exceptBind_ok _ _ _ h
  cases h
  refine ⟨?_, ?_, ?_⟩
  · intro k
    exact buildNameIndex_get GameItem.name _ k
  · intro k
    exact buildNameIndex_get GameNpc.name _ k
  · intro k
    exact buildNameIndex_get GameSpell.name _ k

/-- Concrete sources for the C7 witness: two items both named "Potion". -/
def wSrc7 : DataSources :=
  { eif := some [{ name := "Potion", graphicId := 1 }, { name := "Potion", graphicId := 2 }],
    enf := some [], esf := some [], ecf := some [],
    dropsIni := some "", shopsIni := some "", petsIni := some "",
    specialDropsIni := some "", specialMobsIni := some "", npcSpellcastIni := some "",
    mapFile := fun _ => none, questFile := fun _ => none }

/-- The database the C7 witness runs on. -/
def wDb7 : GameDatabase :=
  match loadGameDatabase wSrc7 with
  | Except.ok db => db
  | Except.error _ =>
    { items := [], npcs := [], spells := [], classes := [], maps := [], quests := [],
      itemsByName := [], npcsByName := [], spellsByName := [] }

set_option maxRecDepth 10000 in
theorem name_index_case_insensitive_last_wins_witness :
    JMap.get wDb7.itemsByName "potion" =
      ((JMap.values wDb7.items).filter
        (fun it => decide (it.name ≠ "" ∧ jsToLower it.name = "potion"))).getLast? :=
  (name_index_case_insensitive_last_wins wSrc7 wDb7 (by with_unfolding_all rfl)).1 "potion"

/-! ## Claim C1 -/

/-- Concrete sources for the C1 counterexample: every source present and
well-formed except `specialmobs.ini`, whose fetch rejects. -/
def wSrc1 : DataSources :=
  { eif := some [{ name := "Gold", graphicId := 1 }],
    enf := some [{ name := "Crow", graphicId := 1, behaviorId := 0, boss := false,
                   child := false, npcType := 0 }],
    esf := some [], ecf := some [],
    dropsIni := some "", shopsIni := some "", petsIni := some "",
    specialDropsIni := some "", specialMobsIni := none, npcSpellcastIni := some "",
    mapFile := fun _ => none, questFile := fun _ => none }

/-- Claim C1, counterexample: with every other source intact, a missing
`specialmobs.ini` makes the whole `loadGameDatabase` build fail —
`loadSpecialMobs` does not guard its fetch with a `try`/`catch`, so the
rejection propagates through `Promise.all`.  The claim's assertion that
the absence of this optional file never fails the build is false. -/
theorem specialmobs_absence_fails_build :
    loadGameDatabase wSrc1 = Except.error "Failed to load specialmobs.ini" := by
  with_unfolding_all rfl

theorem buildNpcs_isSpecialSpawn_aux (l : List (Nat × EnfRecord)) (m : JMap Int GameNpc)
    (hm : ∀ u ∈ JMap.values m, u.isSpecialSpawn = none) :
    ∀ v ∈ JMap.values (l.foldl
      (fun m p =>
        let npc : GameNpc :=
          { id := (p.1 : Int) + 1, name := p.2.name, graphicId := p.2.graphicId,
            behaviorId := p.2.behaviorId, boss := p.2.boss, child := p.2.child,
            npcType := p.2.npcType }
        if jsTrim npc.name ≠ "" then JMap.set m npc.id npc else m) m),
      v.isSpecialSpawn = none := by
  induction l generalizing m with
  | nil => exact hm
  | cons p rest ih =>
    rw [List.foldl_cons]
    apply ih
    by_cases hname : jsTrim p.2.name ≠ ""
    · rw [if_pos hname]
      intro u hu
      rcases JMap.mem_values_set _ _ _ _ hu with h1 | h1
      · exact hm u h1
      · rw [h1]
    · rw [if_neg hname]
      exact hm

theorem buildNpcs_isSpecialSpawn (recs : List EnfRecord) :
    ∀ v ∈ JMap.values (buildNpcs recs), v.isSpecialSpawn = none :=
  buildNpcs_isSpecialSpawn_aux recs.enum [] (by intro u hu; cases hu)

theorem indexDrops_isSpecialSpawn (dl : List (Int × List ItemDrop))
    (items : JMap Int GameItem) (npcs : JMap Int GameNpc)
    (hm : ∀ u ∈ JMap.values npcs, u.isSpecialSpawn = none) :
    ∀ v ∈ JMap.values (indexDrops items npcs dl).2, v.isSpecialSpawn = none := by
  induction dl generalizing items npcs with
  | nil => exact hm
  | cons p rest ih =>
    rcases p with ⟨nid, ds⟩
    cases hn : JMap.get npcs nid with
    | none =>
      simp only [indexDrops, hn]
      exact ih _ _ hm
    | some npc =>
      simp only [indexDrops, hn]
      apply ih
      intro u hu
      rcases JMap.mem_values_set _ _ _ _ hu with h1 | h1
      · exact hm u h1
      · rw [h1]
        exact hm npc (JMap.get_mem_values _ _ _ hn)

theorem indexShops_isSpecialSpawn (sl : List (Int × ShopData))
    (items : JMap Int GameItem) (npcs : JMap Int GameNpc)
    (hm : ∀ u ∈ JMap.values npcs, u.isSpecialSpawn = none) :
    ∀ v ∈ JMap.values (indexShops items npcs sl).2, v.isSpecialSpawn = none := by
  induction sl generalizing items npcs with
  | nil => exact hm
  | cons p rest ih =>
    rcases p with ⟨shopId, shop⟩
    simp only [indexShops]
    cases hn : JMap.get npcs shopId with
    | none =>
      simp only [hn]
      exact ih _ _ hm
    | some npc =>
      simp only [hn]
      apply ih
      intro u hu
      rcases JMap.mem_values_set _ _ _ _ hu with h1 | h1
      · exact hm u h1
      · rw [h1]
        exact hm npc (JMap.get_mem_values _ _ _ hn)

theorem indexPets_isSpecialSpawn (pl : List (Int × PetInfo))
    (items : JMap Int GameItem) (npcs : JMap Int GameNpc)
    (hm : ∀ u ∈ JMap.values npcs, u.isSpecialSpawn = none) :
    ∀ v ∈ JMap.values (indexPets items npcs pl), v.isSpecialSpawn = none := by
  induction pl generalizing npcs with
  | nil => exact hm
  | cons p rest ih =>
    rcases p with ⟨npcId, petInfo⟩
    simp only [indexPets]
    cases hn : JMap.get npcs npcId with
    | none =>
      simp only [hn]
      exact ih _ hm
    | some npc =>
      cases hi : JMap.get items petInfo.itemId with
      | none =>
        simp only [hn, hi]
        exact ih _ hm
      | some item =>
        simp only [hn, hi]
        apply ih
        intro u hu
        rcases JMap.mem_values_set _ _ _ _ hu with h1 | h1
        · exact hm u h1
        · rw [h1]
          exact hm npc (JMap.get_mem_values _ _ _ hn)

theorem indexNpcSpellcasts_isSpecialSpawn (sc : List (Int × List SpellcastInfo))
    (npcs : JMap Int GameNpc) (spells : JMap Int GameSpell)
    (hm : ∀ u ∈ JMap.values npcs, u.isSpecialSpawn = none) :
    ∀ v ∈ JMap.values (indexNpcSpellcasts npcs spells sc), v.isSpecialSpawn = none := by
  induction sc generalizing npcs with
  | nil => exact hm
  | cons p rest ih =>
    rcases p with ⟨npcId, casts⟩
    simp only [indexNpcSpellcasts]
    cases hn : JMap.get npcs npcId with
    | none =>
      simp only [hn]
      exact ih _ hm
    | some npc =>
      simp only [hn]
      cases hc : casts.map (resolveCast spells) with
      | nil => exact ih _ hm
      | cons c cs =>
        apply ih
        intro u hu
        rcases JMap.mem_values_set _ _ _ _ hu with h1 | h1
        · exact hm u h1
        · rw [h1]
          exact hm npc (JMap.get_mem_values _ _ _ hn)

theorem indexNpcSpawns_isSpecialSpawn (sl : List MapNpcSpawn) (npcs : JMap Int GameNpc)
    (hm : ∀ u ∈ JMap.values npcs, u.isSpecialSpawn = none) :
    ∀ v ∈ JMap.values (indexNpcSpawns npcs sl), v.isSpecialSpawn = none := by
  induction sl generalizing npcs with
  | nil => exact hm
  | cons spawn rest ih =>
    simp only [indexNpcSpawns]
    cases hn : JMap.get npcs spawn.npcId with
    | none =>
      simp only [hn]
      exact ih _ hm
    | some npc =>
      simp only [hn]
      apply ih
      intro u hu
      rcases JMap.mem_values_set _ _ _ _ hu with h1 | h1
      · exact hm u h1
      · rw [h1]
        exact hm npc (JMap.get_mem_values _ _ _ hn)

theorem indexQuestNpcRefs_isSpecialSpawn (es : List QuestNpcRef) (npcs : JMap Int GameNpc)
    (vidx : JMap Int Int) (qid : Int) (qn : String)
    (hm : ∀ u ∈ JMap.values npcs, u.isSpecialSpawn = none) :
    ∀ v ∈ JMap.values (indexQuestNpcRefs npcs vidx qid qn es).1, v.isSpecialSpawn = none := by
  induction es generalizing npcs with
  | nil => exact hm
  | cons e rest ih =>
    simp only [indexQuestNpcRefs]
    cases hv : (JMap.get vidx e.npcId).bind
        (fun k => (JMap.get npcs k).map (fun n => (k, n))) with
    | none =>
      simp only []
      exact ih _ hm
    | some kn =>
      simp only []
      apply ih
      intro u hu
      rcases JMap.mem_values_set _ _ _ _ hu with h1 | h1
      · exact hm u h1
      · rw [h1]
        have hget : JMap.get npcs kn.1 = some kn.2 := by
          cases hvi : JMap.get vidx e.npcId with
          | none => rw [hvi] at hv; cases hv
          | some k =>
            rw [hvi] at hv
            simp only [Option.some_bind] at hv
            cases hnk : JMap.get npcs k with
            | none => rw [hnk] at hv; cases hv
            | some n =>
              rw [hnk] at hv
              simp only [Option.map_some'] at hv
              injection hv with h2
              rw [← h2]
              exact hnk
        exact hm kn.2 (JMap.get_mem_values _ _ _ hget)

theorem indexQuestKills_isSpecialSpawn (krs : List QuestKillReq) (npcs : JMap Int GameNpc)
    (qid : Int) (qn : String)
    (hm : ∀ u ∈ JMap.values npcs, u.isSpecialSpawn = none) :
    ∀ v ∈ JMap.values (indexQuestKills npcs qid qn krs).1, v.isSpecialSpawn = none := by
  induction krs generalizing npcs with
  | nil => exact hm
  | cons kr rest ih =>
    simp only [indexQuestKills]
    cases hn : JMap.get npcs kr.npcId with
    | none =>
      simp only [hn]
      exact ih _ hm
    | some npc =>
      simp only [hn]
      apply ih
      intro u hu
      rcases JMap.mem_values_set _ _ _ _ hu with h1 | h1
      · exact hm u h1
      · rw [h1]
        exact hm npc (JMap.get_mem_values _ _ _ hn)

theorem indexQuests_isSpecialSpawn (ql : List (Int × GameQuest)) (npcs : JMap Int GameNpc)
    (items : JMap Int GameItem) (quests : JMap Int GameQuest) (vidx : JMap Int Int)
    (hm : ∀ u ∈ JMap.values npcs, u.isSpecialSpawn = none) :
    ∀ v ∈ JMap.values (indexQuests npcs items quests vidx ql).1, v.isSpecialSpawn = none := by
  induction ql generalizing npcs items quests with
  | nil => exact hm
  | cons p rest ih =>
    rcases p with ⟨qkey, q⟩
    simp only [indexQuests]
    apply ih
    apply indexQuestKills_isSpecialSpawn
    apply indexQuestNpcRefs_isSpecialSpawn
    exact hm

theorem indexSpecialMobs_nil (npcs : JMap Int GameNpc) : indexSpecialMobs npcs [] = npcs :=
  rfl

/-- Claim C1, amended: when the special-mobs source is present but yields no
entries, the build succeeds and no NPC of the resulting database carries a
special-spawn annotation — only `indexSpecialMobs` ever sets
`isSpecialSpawn`, and every other pass preserves its absence.  (A missing
`specialmobs.ini` instead fails the whole build, see the counterexample.) -/
theorem specialmobs_empty_no_annotations (src : DataSources) (c : String)
    (db : GameDatabase)
    (hsm : src.specialMobsIni = some c)
    (hparse : parseSpecialMobsContent c = [])
    (h : loadGameDatabase src = Except.ok db) :
    ∀ npc ∈ JMap.values db.npcs, npc.isSpecialSpawn = none := by
  unfold loadGameDatabase at h
  obtain ⟨items0, hi0, h⟩ := exceptBind_ok _ _ _ h
  obtain ⟨npcs0, hn0, h⟩ := exceptBind_ok _ _ _ h
  obtain ⟨spells0, hs0, h⟩ := exceptBind_ok _ _ _ h
  obtain ⟨classes0, hc0, h⟩ := exceptBind_ok _ _ _ h
  obtain ⟨pets0, hp0, h⟩ := exceptBind_ok _ _ _ h
  obtain ⟨sd0, hsd0, h⟩ := exceptBind_ok _ _ _ h
  obtain ⟨sm0, hsm0, h⟩ := exceptBind_ok _ _ _ h
  obtain ⟨scs0, hscs0, h⟩ := exceptBind_ok _ _ _ h
  rw [hsm] at hsm0
  simp only [loadSpecialMobs] at hsm0
  rw [hparse] at hsm0
  injection hsm0 with hsm0e
  subst hsm0e
  cases henf : src.enf with
  | none =>
    rw [henf] at hn0
    cases hn0
  | some recs =>
    rw [henf] at hn0
    simp only [loadNpcs] at hn0
    injection hn0 with hn0e
    subst hn0e
    cases h
    apply indexQuests_isSpecialSpawn
    apply indexNpcSpawns_isSpecialSpawn
    apply indexNpcSpellcasts_isSpecialSpawn
    rw [indexSpecialMobs_nil]
    apply indexPets_isSpecialSpawn
    apply indexShops_isSpecialSpawn
    apply indexDrops_isSpecialSpawn
    exact buildNpcs_isSpecialSpawn recs

/-- Concrete sources for the C1 amended-theorem witness: one ENF NPC, all
relationship sources present and empty. -/
def wSrc1ok : DataSources :=
  { eif := some [{ name := "Gold", graphicId := 1 }],
    enf := some [{ name := "Crow", graphicId := 1, behaviorId := 0, boss := false,
                   child := false, npcType := 0 }],
    esf := some [], ecf := some [],
    dropsIni := some "", shopsIni := some "", petsIni := some "",
    specialDropsIni := some "", specialMobsIni := some "", npcSpellcastIni := some "",
    mapFile := fun _ => none, questFile := fun _ => none }

/-- The database the C1 witness runs on. -/
def wDb1 : GameDatabase :=
  match loadGameDatabase wSrc1ok with
  | Except.ok db => db
  | Except.error _ =>
    { items := [], npcs := [], spells := [], classes := [], maps := [], quests := [],
      itemsByName := [], npcsByName := [], spellsByName := [] }

/-- The NPC sitting in `wDb1`. -/
def wNpc1 : GameNpc :=
  { id := 1, name := "Crow", graphicId := 1, behaviorId := 0, boss := false,
    child := false, npcType := 0 }

set_option maxRecDepth 10000 in
theorem specialmobs_empty_no_annotations_witness :
    wNpc1.isSpecialSpawn = none :=
  specialmobs_empty_no_annotations wSrc1ok "" wDb1 rfl (by with_unfolding_all rfl)
    (by with_unfolding_all rfl) wNpc1 (by with_unfolding_all decide)
